import Mathlib

/-!
Verification development for the Service Manager core.

This file gives a shallow embedding of the parts of the repository that the
checked properties are about:

* the public-plan visibility reconciler (`resync`,
  `resyncPublicPlanVisibilities`, `resyncPlanVisibilitiesWithSupportedPlatforms`,
  `platformsAnyMatchesVisibility`, `persistVisibility` of
  `storage/interceptors/broker_public_plans_interceptor`),
* the operations configuration validation (`Settings.Validate` and
  `PoolSettings.Validate` of `operations/config.go`),
* the postgres `Platform` entity conversions (`Platform.FromObject`,
  `Platform.ToObject`),
* and spec-modelled fragments of the broker reconciliation driver
  (PATCH/DELETE flows) whose source is not part of the packaged tree.

Stateful Go code is embedded as explicit state passing over lists; the
storage is a list of rows, database deletes are row removals and creates are
appends.  `time.Duration` values are embedded as `Int` nanosecond counts.
-/

set_option linter.unusedVariables false

/-! ## Data model for the visibility reconciler -/

/-- A `types.Visibility` row, restricted to the fields the reconciler reads:
row id, `service_plan_id`, `platform_id` (empty string means wildcard) and the
labels map (the reconciler only ever tests labels for emptiness). -/
structure Visibility where
  id : String
  servicePlanID : String
  platformID : String
  labels : List (String × List String)
  deriving DecidableEq, Repr

/-- A `types.Platform` row, restricted to the fields the reconciler reads:
its id and its platform `type`. -/
structure Platform where
  id : String
  type : String
  deriving DecidableEq, Repr

/-- A `types.ServicePlan` as seen by the reconciler: only its id is read by
`resync` itself (publicness and supported platforms come from the injected
functions, which receive the whole plan). -/
structure ServicePlan where
  id : String
  catalogID : String
  catalogName : String
  free : Bool
  deriving DecidableEq, Repr

/-- A `types.ServiceOffering` with its plans. -/
structure ServiceOffering where
  id : String
  plans : List ServicePlan
  deriving DecidableEq, Repr

/-- A `types.ServiceBroker` with its derived services. -/
structure ServiceBroker where
  id : String
  services : List ServiceOffering
  deriving DecidableEq, Repr

/-! ## Case A: `resyncPublicPlanVisibilities` -/

/-- The loop of `resyncPublicPlanVisibilities` (part_000 lines 142-163),
processed front to back.  Returns the rows that are kept, the rows that are
deleted, and the `publicVisibilityExists` flag.  Per row the source sets
`shouldDeleteVisibility := true`, then when the plan is public a wildcard row
(empty `platform_id`) is kept and flags `publicVisibilityExists`, and when the
plan is not public a non-wildcard row is kept; everything else is deleted. -/
def publicPlanScan (isPlanPublic : Bool) : List Visibility → List Visibility × List Visibility × Bool
  | [] => ([], [], false)
  | v :: vs =>
    let rest := publicPlanScan isPlanPublic vs
    let kept := rest.1
    let deleted := rest.2.1
    let ex := rest.2.2
    if isPlanPublic then
      if v.platformID == "" then (v :: kept, deleted, true)
      else (kept, v :: deleted, ex)
    else
      if v.platformID == "" then (kept, v :: deleted, ex)
      else (v :: kept, deleted, ex)

/-- `persistVisibility` (part_000 lines 229-253): builds a new visibility row
with a fresh id, the given platform and plan ids and no labels, and creates it.
Fresh UUIDs are embedded as a counter-indexed id; the returned `Nat` is the
advanced counter.  `brokerID` is only used for logging in the source. -/
def persistVisibility (platformID planID brokerID : String) (ctr : Nat) : Visibility × Nat :=
  ({ id := "generated-visibility-" ++ toString ctr
   , servicePlanID := planID
   , platformID := platformID
   , labels := [] }, ctr + 1)

/-- `resyncPublicPlanVisibilities` (part_000 lines 139-172): scan the plan's
visibilities deciding deletions and whether a wildcard row exists, then when
the plan is public and no wildcard row exists create one (empty `platform_id`,
no labels).  Returns `(kept, deleted, created, ctr)`. -/
def resyncPublicPlanVisibilities (isPlanPublic : Bool) (planID brokerID : String)
    (planVisibilities : List Visibility) (ctr : Nat) :
    List Visibility × List Visibility × List Visibility × Nat :=
  let scanned := publicPlanScan isPlanPublic planVisibilities
  let kept := scanned.1
  let deleted := scanned.2.1
  let publicVisibilityExists := scanned.2.2
  if isPlanPublic && !publicVisibilityExists then
    let created := persistVisibility "" planID brokerID ctr
    (kept, deleted, [created.1], created.2)
  else
    (kept, deleted, [], ctr)

/-! ## Case B: `resyncPlanVisibilitiesWithSupportedPlatforms` -/

/-- `platformsAnyMatchesVisibility` (part_000 lines 220-227): finds the first
platform whose id equals the visibility's `platform_id`.  The source returns
the index and a found flag, and the caller removes the found index with
`append(platforms[:idx], platforms[idx+1:]...)`; this embedding returns the
matched platform together with exactly that remainder list. -/
def platformsAnyMatchesVisibility : List Platform → Visibility → Option (Platform × List Platform)
  | [], _ => none
  | platform :: rest, visibility =>
    if visibility.platformID == platform.id then some (platform, rest)
    else
      match platformsAnyMatchesVisibility rest visibility with
      | some (q, remainder) => some (q, platform :: remainder)
      | none => none

/-- The loop of `resyncPlanVisibilitiesWithSupportedPlatforms`
(part_000 lines 183-206), processed front to back over the plan's
visibilities, with the mutable `supportedPlatforms` slice threaded through.
Per row: when the plan is public, a row matching a (still unconsumed)
supported platform and carrying no labels is kept and consumes that platform;
when the plan is not public, a row matching a supported platform and carrying
labels is kept; every other row is deleted.  Returns
`(kept, deleted, remaining supported platforms)`. -/
def resyncVisLoop (isPlanPublic : Bool) : List Visibility → List Platform →
    List Visibility × List Visibility × List Platform
  | [], supportedPlatforms => ([], [], supportedPlatforms)
  | v :: vs, supportedPlatforms =>
    match platformsAnyMatchesVisibility supportedPlatforms v with
    | some (_, remaining) =>
      if isPlanPublic then
        if v.labels.isEmpty then
          let rest := resyncVisLoop isPlanPublic vs remaining
          (v :: rest.1, rest.2.1, rest.2.2)
        else
          let rest := resyncVisLoop isPlanPublic vs supportedPlatforms
          (rest.1, v :: rest.2.1, rest.2.2)
      else
        if v.labels.isEmpty then
          let rest := resyncVisLoop isPlanPublic vs supportedPlatforms
          (rest.1, v :: rest.2.1, rest.2.2)
        else
          let rest := resyncVisLoop isPlanPublic vs supportedPlatforms
          (v :: rest.1, rest.2.1, rest.2.2)
    | none =>
      let rest := resyncVisLoop isPlanPublic vs supportedPlatforms
      (rest.1, v :: rest.2.1, rest.2.2)

/-- The creation loop at the end of `resyncPlanVisibilitiesWithSupportedPlatforms`
(part_000 lines 208-214): one `persistVisibility` per left-over supported
platform, in order. -/
def createForPlatforms : List Platform → String → String → Nat → List Visibility × Nat
  | [], _, _, ctr => ([], ctr)
  | platform :: rest, planID, brokerID, ctr =>
    let created := persistVisibility platform.id planID brokerID ctr
    let tail := createForPlatforms rest planID brokerID created.2
    (created.1 :: tail.1, tail.2)

/-- `resyncPlanVisibilitiesWithSupportedPlatforms` (part_000 lines 174-217):
list the platforms whose type is among the plan's supported platform types,
run the visibility loop against them, and when the plan is public create a
label-free visibility for each supported platform left unconsumed.
Returns `(kept, deleted, created, ctr)`. -/
def resyncPlanVisibilitiesWithSupportedPlatforms (isPlanPublic : Bool)
    (planID brokerID : String) (planVisibilities : List Visibility)
    (platforms : List Platform) (supportedPlatformTypes : List String) (ctr : Nat) :
    List Visibility × List Visibility × List Visibility × Nat :=
  let supportedPlatforms := platforms.filter (fun p => supportedPlatformTypes.contains p.type)
  let looped := resyncVisLoop isPlanPublic planVisibilities supportedPlatforms
  let kept := looped.1
  let deleted := looped.2.1
  let remaining := looped.2.2
  if isPlanPublic then
    let created := createForPlatforms remaining planID brokerID ctr
    (kept, deleted, created.1, created.2)
  else
    (kept, deleted, [], ctr)

/-! ## The full `resync` over a broker's catalog -/

/-- The slice of storage state the reconciler touches: all visibility rows,
all platform rows, and the fresh-id counter standing in for the UUID source. -/
structure SMState where
  visibilities : List Visibility
  platforms : List Platform
  ctr : Nat
  deriving DecidableEq, Repr

/-- Applies one plan's reconciliation outcome to the visibility table: the
plan's rows are replaced by the kept ones (deletes are row removals by id;
row ids are unique in storage, so removing exactly the non-kept rows of the
plan is the delete's effect) and the created rows are inserted. -/
def applyPlanResult (vs : List Visibility) (planID : String)
    (kept created : List Visibility) : List Visibility :=
  vs.filter (fun v => !(v.servicePlanID == planID)) ++ kept ++ created

/-- The dispatch of `resync` (part_000 lines 125-129): an empty
supported-platform-types list goes to Case A, a non-empty one to Case B. -/
def resyncPlanDispatch (isPlanPublic : Bool) (supportedPlatformTypes : List String)
    (planID brokerID : String) (planVisibilities : List Visibility)
    (platforms : List Platform) (ctr : Nat) :
    List Visibility × List Visibility × List Visibility × Nat :=
  if supportedPlatformTypes.isEmpty then
    resyncPublicPlanVisibilities isPlanPublic planID brokerID planVisibilities ctr
  else
    resyncPlanVisibilitiesWithSupportedPlatforms isPlanPublic planID brokerID
      planVisibilities platforms supportedPlatformTypes ctr

/-- The per-plan body of `resync` (part_000 lines 111-133): list the plan's
visibilities, dispatch on whether the plan's supported platform types are
empty, and apply the outcome to the state.  Also returns the deleted and
created rows of this step. -/
def resyncPlanStep (isPlanPublic : Bool) (supportedPlatformTypes : List String)
    (planID brokerID : String) (st : SMState) :
    SMState × List Visibility × List Visibility :=
  let planVisibilities := st.visibilities.filter (fun v => v.servicePlanID == planID)
  let out := resyncPlanDispatch isPlanPublic supportedPlatformTypes planID brokerID
    planVisibilities st.platforms st.ctr
  ({ visibilities := applyPlanResult st.visibilities planID out.1 out.2.2.1
   , platforms := st.platforms
   , ctr := out.2.2.2 }, out.2.1, out.2.2.1)

/-- The inner loop of `resync` (part_000 lines 110-134) over one offering's
plans.  `isCatalogPlanPublicFunc` and `supportedPlatforms` are the injected
processor functions (their implementations live outside this package); the
error path of `isCatalogPlanPublicFunc` aborts the whole transaction, so runs
are modelled on the successful, total fragment. -/
def resyncPlansLoop (isCatalogPlanPublicFunc : ServiceBroker → ServiceOffering → ServicePlan → Bool)
    (supportedPlatformsFunc : ServicePlan → List String)
    (broker : ServiceBroker) (serviceOffering : ServiceOffering) :
    List ServicePlan → SMState → SMState × List Visibility × List Visibility
  | [], st => (st, [], [])
  | servicePlan :: rest, st =>
    let step := resyncPlanStep (isCatalogPlanPublicFunc broker serviceOffering servicePlan)
      (supportedPlatformsFunc servicePlan) servicePlan.id broker.id st
    let tail := resyncPlansLoop isCatalogPlanPublicFunc supportedPlatformsFunc broker
      serviceOffering rest step.1
    (tail.1, step.2.1 ++ tail.2.1, step.2.2 ++ tail.2.2)

/-- The outer loop of `resync` (part_000 lines 109-135) over the broker's
service offerings. -/
def resyncServicesLoop (isCatalogPlanPublicFunc : ServiceBroker → ServiceOffering → ServicePlan → Bool)
    (supportedPlatformsFunc : ServicePlan → List String) (broker : ServiceBroker) :
    List ServiceOffering → SMState → SMState × List Visibility × List Visibility
  | [], st => (st, [], [])
  | serviceOffering :: rest, st =>
    let inner := resyncPlansLoop isCatalogPlanPublicFunc supportedPlatformsFunc broker
      serviceOffering serviceOffering.plans st
    let tail := resyncServicesLoop isCatalogPlanPublicFunc supportedPlatformsFunc broker
      rest inner.1
    (tail.1, inner.2.1 ++ tail.2.1, inner.2.2 ++ tail.2.2)

/-- `resync` (part_000 lines 108-137): reconcile every plan of every offering
of the broker against the visibility table.  Returns the new state together
with all rows deleted and all rows created during the run. -/
def resync (isCatalogPlanPublicFunc : ServiceBroker → ServiceOffering → ServicePlan → Bool)
    (supportedPlatformsFunc : ServicePlan → List String) (broker : ServiceBroker)
    (st : SMState) : SMState × List Visibility × List Visibility :=
  resyncServicesLoop isCatalogPlanPublicFunc supportedPlatformsFunc broker broker.services st

/-- The plan ids appearing in a broker's catalog, in iteration order. -/
def brokerPlanIDs (broker : ServiceBroker) : List String :=
  broker.services.flatMap (fun serviceOffering => serviceOffering.plans.map (fun pl => pl.id))

/-- The broker's catalog flattened to (offering, plan) pairs, in the nested
iteration order of `resync`. -/
def brokerPlanPairs (broker : ServiceBroker) : List (ServiceOffering × ServicePlan) :=
  broker.services.flatMap (fun serviceOffering =>
    serviceOffering.plans.map (fun pl => (serviceOffering, pl)))

/-- `resync` rewritten over the flattened plan list; proved equal to the
nested loops below and used as the induction vehicle. -/
def resyncFlat (isCatalogPlanPublicFunc : ServiceBroker → ServiceOffering → ServicePlan → Bool)
    (supportedPlatformsFunc : ServicePlan → List String) (broker : ServiceBroker) :
    List (ServiceOffering × ServicePlan) → SMState → SMState × List Visibility × List Visibility
  | [], st => (st, [], [])
  | pr :: rest, st =>
    let step := resyncPlanStep (isCatalogPlanPublicFunc broker pr.1 pr.2)
      (supportedPlatformsFunc pr.2) pr.2.id broker.id st
    let tail := resyncFlat isCatalogPlanPublicFunc supportedPlatformsFunc broker rest step.1
    (tail.1, step.2.1 ++ tail.2.1, step.2.2 ++ tail.2.2)

/-! ## Operations configuration (`operations/config.go`) -/

/-- `minTimePeriod = time.Nanosecond` (config.go line 25); durations are
embedded as `Int` nanosecond counts, so this is `1`. -/
def minTimePeriod : Int := 1

/-- `PoolSettings` (config.go lines 93-96). -/
structure PoolSettings where
  resource : String
  size : Int
  deriving DecidableEq, Repr

/-- `PoolSettings.Validate` (config.go lines 99-105): rejects a non-positive
pool size.  `none` is the nil error. -/
def PoolSettings.validate (ps : PoolSettings) : Option String :=
  if ps.size ≤ 0 then
    some ("validate Settings: Pool size for resource " ++ ps.resource ++ " must be larger than 0")
  else
    none

/-- `Settings` (config.go lines 34-46); all `time.Duration` fields as `Int`
nanoseconds. -/
structure Settings where
  actionTimeout : Int
  reconciliationOperationTimeout : Int
  cleanupInterval : Int
  lifespan : Int
  reschedulingInterval : Int
  pollingInterval : Int
  defaultPoolSize : Int
  pools : List PoolSettings
  deriving DecidableEq, Repr

/-- The `for _, pool := range s.Pools` loop of `Settings.Validate`
(config.go lines 83-87): the first failing pool's error is returned. -/
def validatePools : List PoolSettings → Option String
  | [] => none
  | pool :: rest =>
    match pool.validate with
    | some e => some e
    | none => validatePools rest

/-- `Settings.Validate` (config.go lines 64-90), with the checks in source
order.  Note the source compares each duration with `<= minTimePeriod`
(one nanosecond) and never inspects `Lifespan`. -/
def Settings.validate (s : Settings) : Option String :=
  if s.actionTimeout ≤ minTimePeriod then
    some "validate Settings: ActionTimeout must be larger than 1ns"
  else if s.cleanupInterval ≤ minTimePeriod then
    some "validate Settings: CleanupInterval must be larger than 1ns"
  else if s.reconciliationOperationTimeout ≤ minTimePeriod then
    some "validate Settings: ReconciliationOperationTimeout must be larger than 1ns"
  else if s.reschedulingInterval ≤ minTimePeriod then
    some "validate Settings: ReschedulingInterval must be larger than 1ns"
  else if s.pollingInterval ≤ minTimePeriod then
    some "validate Settings: PollingInterval must be larger than 1ns"
  else if s.defaultPoolSize ≤ 0 then
    some "validate Settings: DefaultPoolSize must be larger than 0"
  else
    validatePools s.pools

/-! ## Spec-modelled broker PATCH and DELETE flows

The broker reconciliation driver and the catalog differ are not part of the
packaged sources (only their tests are), so the fragments the claims need are
modelled from the spec. -/

/-- A catalog entry (an offering within a broker, or a plan within an
offering): the broker-assigned `catalog_id` and the `catalog_name`, each
unique within its scope. -/
structure CatalogEntry where
  catalogID : String
  catalogName : String
  deriving DecidableEq, Repr

/-- A stored broker row: its id, the persisted raw catalog blob, and the
normalized catalog entries of one scope derived from it. -/
structure BrokerRow where
  id : String
  catalog : String
  entries : List CatalogEntry
  deriving DecidableEq, Repr

/-- Modelled from the spec: the catalog differ's conflict rule (spec 4.4,
the differ itself is not under src) — entries match by `catalog_id` within
their scope, and a `catalog_id` change with an unchanged `catalog_name` is a
conflict: some fetched entry carries the `catalog_name` of a stored entry but
a different `catalog_id`. -/
def catalogConflict (stored fetched : List CatalogEntry) : Bool :=
  fetched.any (fun fp =>
    stored.any (fun sp => sp.catalogName == fp.catalogName && !(sp.catalogID == fp.catalogID)))

/-- The updatable fields of a broker PATCH body (spec 4.6); each field is
optional and an empty body has all fields absent. -/
structure PatchBody where
  name : Option String
  description : Option String
  brokerURL : Option String
  credentials : Option (String × String)
  deriving DecidableEq, Repr

/-- The empty PATCH body. -/
def emptyPatchBody : PatchBody := ⟨none, none, none, none⟩

/-- Outcome of a broker PATCH: HTTP status, the broker row after the request,
and the total number of catalog fetches performed against the broker. -/
structure PatchOutcome where
  status : Nat
  broker : BrokerRow
  catalogFetches : Nat
  deriving DecidableEq, Repr

/-- Modelled from the spec: the broker PATCH flow (spec 4.6, the driver is
not under src) — every PATCH against an existing broker refetches the catalog
exactly once regardless of the body, then diffs; on a `catalog_id` conflict
the request fails with 409 and the stored catalog blob and entries stay
untouched, otherwise the fetched blob and entries are persisted. -/
def brokerPatch (broker : BrokerRow) (body : PatchBody) (fetchedBlob : String)
    (fetchedEntries : List CatalogEntry) (catalogFetches : Nat) : PatchOutcome :=
  let catalogFetches' := catalogFetches + 1
  if catalogConflict broker.entries fetchedEntries then
    { status := 409, broker := broker, catalogFetches := catalogFetches' }
  else
    { status := 200
    , broker := { broker with catalog := fetchedBlob, entries := fetchedEntries }
    , catalogFetches := catalogFetches' }

/-- A broker with the set of (Service-Manager) plan ids it owns, for the
DELETE guard. -/
structure OwnedBroker where
  id : String
  planIDs : List String
  deriving DecidableEq, Repr

/-- A service instance row restricted to what the DELETE guard reads. -/
structure InstanceRow where
  id : String
  servicePlanID : String
  deriving DecidableEq, Repr

/-- The broker-related storage slice the DELETE flow touches. -/
structure DeleteState where
  brokers : List OwnedBroker
  instances : List InstanceRow
  deriving DecidableEq, Repr

/-- Modelled from the spec: the broker DELETE guard (spec 4.6 and invariant 2,
the handler is not under src) — deleting a broker is refused with 409
`ExistingReferenceEntity` when any instance references a plan owned by the
broker, leaving storage unchanged; otherwise the broker row is removed. -/
def brokerDelete (st : DeleteState) (brokerID : String) : Nat × String × DeleteState :=
  match st.brokers.find? (fun b => b.id == brokerID) with
  | none => (404, "NotFound", st)
  | some b =>
    if st.instances.any (fun i => b.planIDs.contains i.servicePlanID) then
      (409, "ExistingReferenceEntity", st)
    else
      (200, "OK", { st with brokers := st.brokers.filter (fun x => !(x.id == brokerID)) })

/-! ## Postgres `Platform` entity conversions (part_000 lines 283-350) -/

/-- `types.Basic` credentials. -/
structure Basic where
  username : String
  password : String
  deriving DecidableEq, Repr

/-- `types.Credentials`: optional basic credentials plus the `[32]byte`
checksum, embedded as a byte list. -/
structure Credentials where
  basic : Option Basic
  checksum : List Nat
  deriving DecidableEq, Repr

/-- The `types.Platform` API object (`Base` fields inlined). -/
structure TypesPlatform where
  id : String
  createdAt : Int
  updatedAt : Int
  pagingSequence : Int
  ready : Bool
  type : String
  name : String
  description : String
  credentials : Option Credentials
  active : Bool
  lastActive : Int
  deriving DecidableEq, Repr

/-- `sql.NullString`. -/
structure NullString where
  string : String
  valid : Bool
  deriving DecidableEq, Repr

/-- The postgres `Platform` entity (part_000 lines 283-293), `BaseEntity`
fields inlined; `Username`, `Password` and `Checksum` are flat columns. -/
structure PGPlatform where
  id : String
  createdAt : Int
  updatedAt : Int
  pagingSequence : Int
  ready : Bool
  type : String
  name : String
  description : NullString
  username : String
  password : String
  checksum : List Nat
  active : Bool
  lastActive : Int
  deriving DecidableEq, Repr

/-- `toNullString`, a postgres-package helper not in the packaged tree:
wraps a string, valid when non-empty (`FromObject` re-asserts validity for
non-empty descriptions right after calling it). -/
def toNullString (s : String) : NullString :=
  { string := s, valid := !(s == "") }

/-- `Platform.FromObject` (part_000 lines 295-324): copy the base and scalar
fields, wrap the description, and when both `Credentials` and
`Credentials.Basic` are non-nil copy username, password and checksum.  The
typed embedding cannot receive a non-`Platform` object, so the `ok` flag of
the source is always true here. -/
def PGPlatform.fromObject (platform : TypesPlatform) : PGPlatform :=
  let result : PGPlatform :=
    { id := platform.id
    , createdAt := platform.createdAt
    , updatedAt := platform.updatedAt
    , pagingSequence := platform.pagingSequence
    , ready := platform.ready
    , type := platform.type
    , name := platform.name
    , description := toNullString platform.description
    , username := ""
    , password := ""
    , checksum := []
    , active := platform.active
    , lastActive := platform.lastActive }
  let result :=
    if !(platform.description == "") then
      { result with description := { result.description with valid := true } }
    else result
  match platform.credentials with
  | some creds =>
    match creds.basic with
    | some basic =>
      { result with username := basic.username, password := basic.password
                  , checksum := creds.checksum }
    | none => result
  | none => result

/-- The `var checksum [32]byte; copy(checksum[:], p.Checksum)` step of
`Platform.ToObject`: at most 32 bytes are copied and the rest stays zero. -/
def copyChecksum32 (bytes : List Nat) : List Nat :=
  bytes.take 32 ++ List.replicate (32 - (bytes.take 32).length) 0

/-- `Platform.ToObject` (part_000 lines 326-350): rebuild the API object;
credentials and basic credentials are always allocated, even from empty
columns. -/
def PGPlatform.toObject (p : PGPlatform) : TypesPlatform :=
  { id := p.id
  , createdAt := p.createdAt
  , updatedAt := p.updatedAt
  , pagingSequence := p.pagingSequence
  , ready := p.ready
  , type := p.type
  , name := p.name
  , description := p.description.string
  , credentials := some { basic := some { username := p.username, password := p.password }
                        , checksum := copyChecksum32 p.checksum }
  , active := p.active
  , lastActive := p.lastActive }

/-! ## Helper lemmas: Case A -/

/-- The row decision of the Case A loop depends only on the row: kept rows
are the wildcard rows when public and the non-wildcard rows when not public,
and the `publicVisibilityExists` flag is an existence check of a wildcard row
under publicness. -/
theorem publicPlanScan_eq (b : Bool) (vs : List Visibility) :
    publicPlanScan b vs =
      (vs.filter (fun v => if b then v.platformID == "" else !(v.platformID == "")),
       vs.filter (fun v => if b then !(v.platformID == "") else v.platformID == ""),
       b && vs.any (fun v => v.platformID == "")) := by
  induction vs with
  | nil => cases b <;> simp [publicPlanScan]
  | cons v vs ih =>
    cases b <;>
      by_cases h : v.platformID = "" <;>
        simp_all [publicPlanScan, List.filter_cons, List.any_cons]

/-! ## Helper lemmas: Case B matching -/

/-- A successful match returns a platform carrying exactly the visibility's
`platform_id`. -/
theorem platformsAnyMatchesVisibility_id (ps : List Platform) (v : Visibility)
    (q : Platform) (rem : List Platform)
    (h : platformsAnyMatchesVisibility ps v = some (q, rem)) : q.id = v.platformID := by
  induction ps generalizing q rem with
  | nil => exact Option.noConfusion h
  | cons p rest ih =>
    unfold platformsAnyMatchesVisibility at h
    by_cases hp : v.platformID == p.id
    · rw [if_pos hp] at h
      rw [Option.some.injEq, Prod.mk.injEq] at h
      rw [← h.1]
      exact (beq_iff_eq.mp hp).symm
    · rw [if_neg hp] at h
      cases hrec : platformsAnyMatchesVisibility rest v with
      | none => rw [hrec] at h; exact Option.noConfusion h
      | some qr =>
        obtain ⟨q1, rem1⟩ := qr
        rw [hrec] at h
        simp only [Option.some.injEq, Prod.mk.injEq] at h
        rw [← h.1]
        exact ih q1 rem1 hrec

/-- A successful match splits the platform list into the matched platform and
the remainder, up to permutation. -/
theorem platformsAnyMatchesVisibility_perm (ps : List Platform) (v : Visibility)
    (q : Platform) (rem : List Platform)
    (h : platformsAnyMatchesVisibility ps v = some (q, rem)) : ps.Perm (q :: rem) := by
  induction ps generalizing q rem with
  | nil => exact Option.noConfusion h
  | cons p rest ih =>
    unfold platformsAnyMatchesVisibility at h
    by_cases hp : v.platformID == p.id
    · rw [if_pos hp] at h
      rw [Option.some.injEq, Prod.mk.injEq] at h
      rw [← h.1, ← h.2]
    · rw [if_neg hp] at h
      cases hrec : platformsAnyMatchesVisibility rest v with
      | none => rw [hrec] at h; exact Option.noConfusion h
      | some qr =>
        obtain ⟨q1, rem1⟩ := qr
        rw [hrec] at h
        simp only [Option.some.injEq, Prod.mk.injEq] at h
        rw [← h.1, ← h.2]
        exact ((ih q1 rem1 hrec).cons p).trans (List.Perm.swap q1 p rem1)

/-- The match fails exactly when no platform carries the visibility's
`platform_id`. -/
theorem platformsAnyMatchesVisibility_none_iff (ps : List Platform) (v : Visibility) :
    platformsAnyMatchesVisibility ps v = none ↔
      v.platformID ∉ ps.map (fun p => p.id) := by
  induction ps with
  | nil => simp [platformsAnyMatchesVisibility]
  | cons p rest ih =>
    unfold platformsAnyMatchesVisibility
    by_cases hp : v.platformID == p.id
    · rw [if_pos hp]
      simp [beq_iff_eq.mp hp]
    · rw [if_neg hp]
      have hp2 : ¬ v.platformID = p.id := by simpa using hp
      cases hrec : platformsAnyMatchesVisibility rest v with
      | none =>
        have hnm : v.platformID ∉ rest.map (fun p => p.id) := ih.mp hrec
        simp [hp2, hnm]
      | some qr =>
        obtain ⟨q1, rem1⟩ := qr
        have hmem : v.platformID ∈ rest.map (fun p => p.id) := by
          by_contra hn
          rw [ih.mpr hn] at hrec
          exact Option.noConfusion hrec
        simp [hp2, hmem]

/-! ## Helper lemmas: Case B loop -/

/-- Every row of the plan is either kept or deleted by the Case B loop. -/
theorem resyncVisLoop_perm_partition (b : Bool) (vs : List Visibility) (ps : List Platform) :
    ((resyncVisLoop b vs ps).1 ++ (resyncVisLoop b vs ps).2.1).Perm vs := by
  induction vs generalizing ps with
  | nil => simp [resyncVisLoop]
  | cons v vs ih =>
    unfold resyncVisLoop
    cases hm : platformsAnyMatchesVisibility ps v with
    | none =>
      simpa using List.perm_middle.trans ((ih ps).cons v)
    | some qr =>
      obtain ⟨q1, rem1⟩ := qr
      cases b with
      | true =>
        by_cases hl : v.labels.isEmpty
        · simpa [hl] using (ih rem1).cons v
        · simpa [hl] using List.perm_middle.trans ((ih ps).cons v)
      | false =>
        by_cases hl : v.labels.isEmpty
        · simpa [hl] using List.perm_middle.trans ((ih ps).cons v)
        · simpa [hl] using (ih ps).cons v

/-- Under a public plan, the kept rows of the Case B loop are unlabeled and
pair one-to-one with the supported platforms that are not left over: the
supported platforms split, up to permutation, into the matched ones (whose
ids are exactly the kept rows' platform ids, in order) and the remainder. -/
theorem resyncVisLoop_public_spec (vs : List Visibility) (ps : List Platform) :
    ∃ matched : List Platform,
      ps.Perm (matched ++ (resyncVisLoop true vs ps).2.2) ∧
      (resyncVisLoop true vs ps).1.map (fun v => v.platformID) =
        matched.map (fun p => p.id) ∧
      ∀ v ∈ (resyncVisLoop true vs ps).1, v.labels = [] := by
  induction vs generalizing ps with
  | nil => exact ⟨[], by simp [resyncVisLoop], by simp [resyncVisLoop], by simp [resyncVisLoop]⟩
  | cons v vs ih =>
    unfold resyncVisLoop
    cases hm : platformsAnyMatchesVisibility ps v with
    | none =>
      simpa [hm] using ih ps
    | some qr =>
      obtain ⟨q1, rem1⟩ := qr
      by_cases hl : v.labels.isEmpty
      · obtain ⟨matched, hperm, hmap, hlab⟩ := ih rem1
        have hpsperm := platformsAnyMatchesVisibility_perm ps v q1 rem1 hm
        have hid := platformsAnyMatchesVisibility_id ps v q1 rem1 hm
        refine ⟨q1 :: matched, ?_, ?_, ?_⟩
        · simpa [hm, hl] using hpsperm.trans (hperm.cons q1)
        · simpa [hm, hl, hid] using hmap
        · intro w hw
          simp only [hm, hl] at hw
          simp only [if_pos, List.mem_cons] at hw
          rcases hw with hw | hw
          · rw [hw]; exact List.isEmpty_iff.mp hl
          · exact hlab w hw
      · simpa [hm, hl] using ih ps

/-- When every row is unlabeled and the rows' platform ids are a permutation
of the supported platforms' ids, the public Case B loop keeps everything,
deletes nothing and consumes every platform. -/
theorem resyncVisLoop_consume (vs : List Visibility) :
    ∀ ps : List Platform, (∀ v ∈ vs, v.labels = []) →
      (vs.map (fun v => v.platformID)).Perm (ps.map (fun p => p.id)) →
      resyncVisLoop true vs ps = (vs, [], []) := by
  induction vs with
  | nil =>
    intro ps _ hperm
    have hmap : ps.map (fun p => p.id) = [] := hperm.symm.eq_nil
    have hps : ps = [] := List.map_eq_nil_iff.mp hmap
    rw [hps]
    rfl
  | cons v vs ih =>
    intro ps hlab hperm
    have hv : v.platformID ∈ ps.map (fun p => p.id) := hperm.mem_iff.mp (by simp)
    cases hm : platformsAnyMatchesVisibility ps v with
    | none =>
      exact absurd ((platformsAnyMatchesVisibility_none_iff ps v).mp hm)
        (not_not_intro hv)
    | some qr =>
      obtain ⟨q1, rem1⟩ := qr
      have hid := platformsAnyMatchesVisibility_id ps v q1 rem1 hm
      have hps := platformsAnyMatchesVisibility_perm ps v q1 rem1 hm
      have hl : v.labels = [] := hlab v (by simp)
      have hrest : (vs.map (fun v => v.platformID)).Perm (rem1.map (fun p => p.id)) := by
        have h1 : (v.platformID :: vs.map (fun v => v.platformID)).Perm
            (ps.map (fun p => p.id)) := by simpa using hperm
        have h2 : (ps.map (fun p => p.id)).Perm (q1.id :: rem1.map (fun p => p.id)) := by
          simpa using hps.map (fun p => p.id)
        have h3 := h1.trans h2
        rw [hid] at h3
        exact h3.cons_inv
      have ihr := ih rem1 (fun w hw => hlab w (List.mem_cons_of_mem _ hw)) hrest
      unfold resyncVisLoop
      simp [hm, List.isEmpty_iff.mpr hl, ihr]

/-- Under a non-public plan the Case B loop never consumes platforms and
keeps exactly the labeled rows matching a supported platform. -/
theorem resyncVisLoop_not_public (vs : List Visibility) (ps : List Platform) :
    resyncVisLoop false vs ps =
      (vs.filter (fun v =>
         (platformsAnyMatchesVisibility ps v).isSome && !v.labels.isEmpty),
       vs.filter (fun v =>
         !((platformsAnyMatchesVisibility ps v).isSome && !v.labels.isEmpty)),
       ps) := by
  induction vs with
  | nil => simp [resyncVisLoop]
  | cons v vs ih =>
    unfold resyncVisLoop
    cases hm : platformsAnyMatchesVisibility ps v with
    | none => simp [hm, List.filter_cons, ih]
    | some qr =>
      obtain ⟨q1, rem1⟩ := qr
      by_cases hl : v.labels.isEmpty <;>
        simp [hm, hl, List.filter_cons, ih]

/-- The created rows of the Case B creation loop target exactly the left-over
platforms, carry no labels, belong to the plan, and advance the counter by
one per row. -/
theorem createForPlatforms_spec (ps : List Platform) (planID brokerID : String) (ctr : Nat) :
    (createForPlatforms ps planID brokerID ctr).1.map (fun v => v.platformID) =
      ps.map (fun p => p.id) ∧
    (∀ v ∈ (createForPlatforms ps planID brokerID ctr).1,
      v.labels = [] ∧ v.servicePlanID = planID) ∧
    (createForPlatforms ps planID brokerID ctr).2 = ctr + ps.length := by
  induction ps generalizing ctr with
  | nil => simp [createForPlatforms]
  | cons p rest ih =>
    obtain ⟨h1, h2, h3⟩ := ih (ctr + 1)
    refine ⟨?_, ?_, ?_⟩
    · simp [createForPlatforms, persistVisibility, h1]
    · intro w hw
      simp only [createForPlatforms, persistVisibility, List.mem_cons] at hw
      rcases hw with hw | hw
      · rw [hw]; exact ⟨rfl, rfl⟩
      · exact h2 w hw
    · simp [createForPlatforms, persistVisibility, h3]
      omega

/-! ## Claim C2 -/

/-- Claim C2 (amended): in Case B (non-empty supported-platforms list), for a
public plan every row of the plan is either kept or deleted (no other
change), a kept row is always unlabeled — a labeled row pairing with a
supported platform is deleted, not preserved —, the kept rows pair
one-to-one with distinct supported platforms, and a label-free visibility is
created for exactly the supported platforms left uncovered; for a non-public
plan exactly the labeled rows pairing with a supported platform are kept,
everything else is deleted, and nothing is created. -/
theorem resyncPlanVisibilitiesWithSupportedPlatforms_spec
    (planID brokerID : String) (vs : List Visibility) (platforms : List Platform)
    (supportedPlatformTypes : List String) (ctr : Nat) :
    (((resyncPlanVisibilitiesWithSupportedPlatforms true planID brokerID vs platforms
        supportedPlatformTypes ctr).1 ++
      (resyncPlanVisibilitiesWithSupportedPlatforms true planID brokerID vs platforms
        supportedPlatformTypes ctr).2.1).Perm vs) ∧
    (∀ v ∈ (resyncPlanVisibilitiesWithSupportedPlatforms true planID brokerID vs platforms
        supportedPlatformTypes ctr).1, v.labels = []) ∧
    (∃ matched rem : List Platform,
      (platforms.filter (fun p => supportedPlatformTypes.contains p.type)).Perm
        (matched ++ rem) ∧
      (resyncPlanVisibilitiesWithSupportedPlatforms true planID brokerID vs platforms
        supportedPlatformTypes ctr).1.map (fun v => v.platformID) =
        matched.map (fun p => p.id) ∧
      (resyncPlanVisibilitiesWithSupportedPlatforms true planID brokerID vs platforms
        supportedPlatformTypes ctr).2.2.1.map (fun v => v.platformID) =
        rem.map (fun p => p.id) ∧
      ∀ v ∈ (resyncPlanVisibilitiesWithSupportedPlatforms true planID brokerID vs platforms
        supportedPlatformTypes ctr).2.2.1, v.labels = [] ∧ v.servicePlanID = planID) ∧
    ((resyncPlanVisibilitiesWithSupportedPlatforms false planID brokerID vs platforms
        supportedPlatformTypes ctr).1 =
      vs.filter (fun v =>
        (platformsAnyMatchesVisibility
          (platforms.filter (fun p => supportedPlatformTypes.contains p.type)) v).isSome &&
        !v.labels.isEmpty)) ∧
    ((resyncPlanVisibilitiesWithSupportedPlatforms false planID brokerID vs platforms
        supportedPlatformTypes ctr).2.1 =
      vs.filter (fun v =>
        !((platformsAnyMatchesVisibility
          (platforms.filter (fun p => supportedPlatformTypes.contains p.type)) v).isSome &&
        !v.labels.isEmpty))) ∧
    ((resyncPlanVisibilitiesWithSupportedPlatforms false planID brokerID vs platforms
        supportedPlatformTypes ctr).2.2.1 = []) := by
  refine ⟨?_, ?_, ?_, ?_, ?_, ?_⟩
  · simpa [resyncPlanVisibilitiesWithSupportedPlatforms] using
      resyncVisLoop_perm_partition true vs
        (platforms.filter (fun p => supportedPlatformTypes.contains p.type))
  · obtain ⟨matched, hperm, hmap, hlab⟩ := resyncVisLoop_public_spec vs
      (platforms.filter (fun p => supportedPlatformTypes.contains p.type))
    intro v hv
    apply hlab
    simpa [resyncPlanVisibilitiesWithSupportedPlatforms] using hv
  · obtain ⟨matched, hperm, hmap, hlab⟩ := resyncVisLoop_public_spec vs
      (platforms.filter (fun p => supportedPlatformTypes.contains p.type))
    obtain ⟨hcmap, hclab, hctr⟩ := createForPlatforms_spec
      (resyncVisLoop true vs
        (platforms.filter (fun p => supportedPlatformTypes.contains p.type))).2.2
      planID brokerID ctr
    refine ⟨matched,
      (resyncVisLoop true vs
        (platforms.filter (fun p => supportedPlatformTypes.contains p.type))).2.2,
      hperm, ?_, ?_, ?_⟩
    · simpa [resyncPlanVisibilitiesWithSupportedPlatforms] using hmap
    · simpa [resyncPlanVisibilitiesWithSupportedPlatforms] using hcmap
    · intro v hv
      apply hclab
      simpa [resyncPlanVisibilitiesWithSupportedPlatforms] using hv
  · simpa [resyncPlanVisibilitiesWithSupportedPlatforms] using
      congrArg (fun t => t.1) (resyncVisLoop_not_public vs
        (platforms.filter (fun p => supportedPlatformTypes.contains p.type)))
  · simpa [resyncPlanVisibilitiesWithSupportedPlatforms] using
      congrArg (fun t => t.2.1) (resyncVisLoop_not_public vs
        (platforms.filter (fun p => supportedPlatformTypes.contains p.type)))
  · simp [resyncPlanVisibilitiesWithSupportedPlatforms]

/-- Claim C2 counterexample: a labeled visibility pairing with a supported
platform under a public plan is deleted (and replaced by a fresh label-free
one), contradicting the claim that a matched labeled visibility is
preserved. -/
theorem resyncPlanVisibilities_deletes_matched_labeled_row :
    (resyncPlanVisibilitiesWithSupportedPlatforms true "plan-1" "broker-1"
      [⟨"v1", "plan-1", "p1", [("tenant", ["t1"])]⟩] [⟨"p1", "kubernetes"⟩]
      ["kubernetes"] 0).2.1 =
      [⟨"v1", "plan-1", "p1", [("tenant", ["t1"])]⟩] ∧
    (resyncPlanVisibilitiesWithSupportedPlatforms true "plan-1" "broker-1"
      [⟨"v1", "plan-1", "p1", [("tenant", ["t1"])]⟩] [⟨"p1", "kubernetes"⟩]
      ["kubernetes"] 0).1 = [] := by
  constructor <;> rfl

/-! ## Helper lemmas: tie-break -/

/-- If a platform id is absent from the supported list, the public Case B
loop keeps no row targeting it. -/
theorem resyncVisLoop_public_kept_not_in (vs : List Visibility) :
    ∀ (ps : List Platform) (p : String), p ∉ ps.map (fun q => q.id) →
      (resyncVisLoop true vs ps).1.filter (fun v => v.platformID == p) = [] := by
  induction vs with
  | nil => intro ps p hp; simp [resyncVisLoop]
  | cons v vs ih =>
    intro ps p hp
    unfold resyncVisLoop
    cases hm : platformsAnyMatchesVisibility ps v with
    | none => simpa [hm] using ih ps p hp
    | some qr =>
      obtain ⟨q1, rem1⟩ := qr
      by_cases hl : v.labels.isEmpty
      · have hid := platformsAnyMatchesVisibility_id ps v q1 rem1 hm
        have hpsm := platformsAnyMatchesVisibility_perm ps v q1 rem1 hm
        have hvp : ¬ (v.platformID == p) = true := by
          intro hb
          apply hp
          have hvpe : v.platformID = p := by simpa using hb
          rw [← hvpe, ← hid]
          exact List.mem_map_of_mem _ (hpsm.mem_iff.mpr (by simp))
        have hrem : p ∉ rem1.map (fun q => q.id) := by
          intro hmem
          apply hp
          apply ((hpsm.map (fun q => q.id)).mem_iff).mpr
          simp [hmem]
        simp [hm, hl, List.filter_cons, hvp, ih rem1 p hrem]
      · simpa [hm, hl] using ih ps p hp

/-- The keep-first tie-break of the public Case B loop: the kept rows
targeting a supported platform `p` are exactly the first unlabeled row of the
plan targeting `p`. -/
theorem resyncVisLoop_keep_first (vs : List Visibility) :
    ∀ (ps : List Platform) (p : String), (ps.map (fun q => q.id)).Nodup →
      p ∈ ps.map (fun q => q.id) →
      (resyncVisLoop true vs ps).1.filter (fun v => v.platformID == p) =
        (vs.filter (fun v => v.labels.isEmpty && v.platformID == p)).take 1 := by
  induction vs with
  | nil => intro ps p hnd hp; simp [resyncVisLoop]
  | cons v vs ih =>
    intro ps p hnd hp
    unfold resyncVisLoop
    cases hm : platformsAnyMatchesVisibility ps v with
    | none =>
      have hnm := (platformsAnyMatchesVisibility_none_iff ps v).mp hm
      have hvp : ¬ (v.platformID == p) = true := by
        intro hb
        have hvpe : v.platformID = p := by simpa using hb
        exact hnm (hvpe ▸ hp)
      simp [hm, List.filter_cons, hvp, ih ps p hnd hp]
    | some qr =>
      obtain ⟨q1, rem1⟩ := qr
      have hid := platformsAnyMatchesVisibility_id ps v q1 rem1 hm
      have hpsm := platformsAnyMatchesVisibility_perm ps v q1 rem1 hm
      have hndc : ((q1 :: rem1).map (fun q => q.id)).Nodup :=
        (hpsm.map (fun q => q.id)).nodup hnd
      have hndc2 : (q1.id :: rem1.map (fun q => q.id)).Nodup := by
        simpa only [List.map_cons] using hndc
      have hnodup := List.nodup_cons.mp hndc2
      by_cases hl : v.labels.isEmpty
      · by_cases hvp : v.platformID = p
        · have hq1 : q1.id = p := hid.trans hvp
          have hrem : p ∉ rem1.map (fun q => q.id) := hq1 ▸ hnodup.1
          have hfz := resyncVisLoop_public_kept_not_in vs rem1 p hrem
          simp [hm, hl, List.filter_cons, hvp, hfz]
        · have hq1p : ¬ q1.id = p := fun e => hvp (hid.symm.trans e)
          have hmem2 : p ∈ rem1.map (fun q => q.id) := by
            have hin : p ∈ (q1 :: rem1).map (fun q => q.id) :=
              ((hpsm.map (fun q => q.id)).mem_iff).mp hp
            simp only [List.map_cons, List.mem_cons] at hin
            rcases hin with hin | hin
            · exact absurd hin.symm hq1p
            · exact hin
          have hnd2 : (rem1.map (fun q => q.id)).Nodup := hnodup.2
          simp [hm, hl, List.filter_cons, hvp, ih rem1 p hnd2 hmem2]
      · simp [hm, hl, List.filter_cons, ih ps p hnd hp]

/-! ## Claim C4 -/

/-- Claim C4 (amended): the keep-first tie-break holds in Case B for a public
plan: among several unlabeled rows for the same supported platform (platform
ids being distinct), the first encountered is kept and every other one is
deleted.  In Case A there is no tie-break: under a public plan every
wildcard row is kept, duplicates included. -/
theorem resync_tie_break_keep_first (vs : List Visibility) (ps : List Platform)
    (p : String) (hnd : (ps.map (fun q => q.id)).Nodup)
    (hp : p ∈ ps.map (fun q => q.id)) :
    (resyncVisLoop true vs ps).1.filter
        (fun v => v.labels.isEmpty && v.platformID == p) =
      (vs.filter (fun v => v.labels.isEmpty && v.platformID == p)).take 1 ∧
    ((resyncVisLoop true vs ps).2.1.filter
        (fun v => v.labels.isEmpty && v.platformID == p)).Perm
      ((vs.filter (fun v => v.labels.isEmpty && v.platformID == p)).drop 1) ∧
    ∀ (planID brokerID : String) (ctr : Nat),
      (resyncPublicPlanVisibilities true planID brokerID vs ctr).1 =
        vs.filter (fun v => v.platformID == "") := by
  obtain ⟨matched, hperm, hmap, hlab⟩ := resyncVisLoop_public_spec vs ps
  have hkf := resyncVisLoop_keep_first vs ps p hnd hp
  have hcongr : (resyncVisLoop true vs ps).1.filter
      (fun v => v.labels.isEmpty && v.platformID == p) =
      (resyncVisLoop true vs ps).1.filter (fun v => v.platformID == p) := by
    apply List.filter_congr
    intro x hx
    rw [List.isEmpty_iff.mpr (hlab x hx), Bool.true_and]
  have hfirst : (resyncVisLoop true vs ps).1.filter
      (fun v => v.labels.isEmpty && v.platformID == p) =
      (vs.filter (fun v => v.labels.isEmpty && v.platformID == p)).take 1 := by
    rw [hcongr, hkf]
  refine ⟨hfirst, ?_, ?_⟩
  · have hpp := (resyncVisLoop_perm_partition true vs ps).filter
      (fun v => v.labels.isEmpty && v.platformID == p)
    rw [List.filter_append, hfirst] at hpp
    have h2 : (vs.filter (fun v => v.labels.isEmpty && v.platformID == p)).Perm
        ((vs.filter (fun v => v.labels.isEmpty && v.platformID == p)).take 1 ++
          (vs.filter (fun v => v.labels.isEmpty && v.platformID == p)).drop 1) := by
      rw [List.take_append_drop]
    exact (List.perm_append_left_iff _).mp (hpp.trans h2)
  · intro planID brokerID ctr
    unfold resyncPublicPlanVisibilities
    rw [publicPlanScan_eq]
    cases h : (vs.any (fun v => v.platformID == "")) <;> simp [h]

/-- Claim C4 witness: two unlabeled rows for the same supported platform of a
public plan — the first is kept, the second deleted. -/
theorem resync_tie_break_keep_first_witness :
    (([⟨"p1", "kubernetes"⟩] : List Platform).map (fun q => q.id)).Nodup ∧
    ("p1" ∈ ([⟨"p1", "kubernetes"⟩] : List Platform).map (fun q => q.id)) ∧
    ((resyncVisLoop true
        [⟨"v1", "plan-1", "p1", []⟩, ⟨"v2", "plan-1", "p1", []⟩]
        [⟨"p1", "kubernetes"⟩]).1.filter
        (fun v => v.labels.isEmpty && v.platformID == "p1") =
      ([⟨"v1", "plan-1", "p1", []⟩, ⟨"v2", "plan-1", "p1", []⟩].filter
        (fun v : Visibility => v.labels.isEmpty && v.platformID == "p1")).take 1 ∧
     ((resyncVisLoop true
        [⟨"v1", "plan-1", "p1", []⟩, ⟨"v2", "plan-1", "p1", []⟩]
        [⟨"p1", "kubernetes"⟩]).2.1.filter
        (fun v => v.labels.isEmpty && v.platformID == "p1")).Perm
      (([⟨"v1", "plan-1", "p1", []⟩, ⟨"v2", "plan-1", "p1", []⟩].filter
        (fun v : Visibility => v.labels.isEmpty && v.platformID == "p1")).drop 1) ∧
     ∀ (planID brokerID : String) (ctr : Nat),
      (resyncPublicPlanVisibilities true planID brokerID
        [⟨"v1", "plan-1", "p1", []⟩, ⟨"v2", "plan-1", "p1", []⟩] ctr).1 =
        [⟨"v1", "plan-1", "p1", []⟩, ⟨"v2", "plan-1", "p1", []⟩].filter
          (fun v : Visibility => v.platformID == "")) :=
  ⟨by decide, by decide,
    resync_tie_break_keep_first
      [⟨"v1", "plan-1", "p1", []⟩, ⟨"v2", "plan-1", "p1", []⟩]
      [⟨"p1", "kubernetes"⟩] "p1" (by decide) (by decide)⟩

/-- Claim C4 counterexample: in Case A with a public plan, two unlabeled
wildcard rows for the same `(plan, platform)` pair (the wildcard pair) are
both kept — the reconciler does not keep only the first and delete the
rest. -/
theorem resyncPublicPlanVisibilities_keeps_duplicate_wildcards :
    (resyncPublicPlanVisibilities true "plan-1" "broker-1"
      [⟨"w1", "plan-1", "", []⟩, ⟨"w2", "plan-1", "", []⟩] 0).1 =
      [⟨"w1", "plan-1", "", []⟩, ⟨"w2", "plan-1", "", []⟩] ∧
    (resyncPublicPlanVisibilities true "plan-1" "broker-1"
      [⟨"w1", "plan-1", "", []⟩, ⟨"w2", "plan-1", "", []⟩] 0).2.1 = [] := by
  constructor <;> rfl

/-! ## Claim C1 -/

/-- Claim C1 (amended): in Case A (empty supported-platforms list), when the
plan is public and no wildcard visibility exists exactly one wildcard
visibility with no labels is created; deletions are label-blind — when public
every visibility with non-empty `platform_id` is deleted (labeled or not) and
every wildcard row is kept, and when not public every wildcard row is deleted
(labeled or not) and every other row is kept. -/
theorem resyncPublicPlanVisibilities_spec (b : Bool) (planID brokerID : String)
    (vs : List Visibility) (ctr : Nat) :
    (resyncPublicPlanVisibilities b planID brokerID vs ctr).1 =
      vs.filter (fun v => if b then v.platformID == "" else !(v.platformID == "")) ∧
    (resyncPublicPlanVisibilities b planID brokerID vs ctr).2.1 =
      vs.filter (fun v => if b then !(v.platformID == "") else v.platformID == "") ∧
    (resyncPublicPlanVisibilities b planID brokerID vs ctr).2.2.1 =
      (if b && !(vs.any (fun v => v.platformID == ""))
       then [(persistVisibility "" planID brokerID ctr).1] else []) ∧
    ∀ v ∈ (resyncPublicPlanVisibilities b planID brokerID vs ctr).2.2.1,
      v.platformID = "" ∧ v.labels = [] := by
  unfold resyncPublicPlanVisibilities
  rw [publicPlanScan_eq]
  cases b with
  | false => simp [persistVisibility]
  | true =>
    cases h : (vs.any (fun v => v.platformID == "")) with
    | true => simp [h, persistVisibility]
    | false => simp [h, persistVisibility]

/-- Claim C1 counterexample: a labeled visibility with non-empty
`platform_id` under a public plan does not survive — it lands in the deleted
set, contradicting the claim's "labeled visibility rows survive". -/
theorem resyncPublicPlanVisibilities_deletes_labeled_row :
    (resyncPublicPlanVisibilities true "plan-1" "broker-1"
      [⟨"v1", "plan-1", "platform-1", [("tenant", ["t1"])]⟩] 0).2.1 =
      [⟨"v1", "plan-1", "platform-1", [("tenant", ["t1"])]⟩] ∧
    (resyncPublicPlanVisibilities true "plan-1" "broker-1"
      [⟨"v1", "plan-1", "platform-1", [("tenant", ["t1"])]⟩] 0).1 = [] := by
  constructor <;> rfl

/-! ## Claim C8 -/

/-- The pools loop succeeds exactly when every pool override has positive
size. -/
theorem validatePools_eq_none_iff (pools : List PoolSettings) :
    validatePools pools = none ↔ ∀ p ∈ pools, 0 < p.size := by
  induction pools with
  | nil => simp [validatePools]
  | cons p rest ih =>
    by_cases h : p.size ≤ 0
    · have hv : validatePools (p :: rest) =
          some ("validate Settings: Pool size for resource " ++ p.resource ++
            " must be larger than 0") := by
        simp [validatePools, PoolSettings.validate, h]
      rw [hv]
      constructor
      · intro hc; exact Option.noConfusion hc
      · intro hall; exact absurd (hall p (by simp)) (by omega)
    · have hv : PoolSettings.validate p = none := by simp [PoolSettings.validate, h]
      have hstep : validatePools (p :: rest) = validatePools rest := by
        simp [validatePools, hv]
      rw [hstep, ih]
      constructor
      · intro hall q hq
        rcases List.mem_cons.mp hq with rfl | hq'
        · omega
        · exact hall q hq'
      · intro hall q hq; exact hall q (List.mem_cons_of_mem _ hq)

/-- Claim C8 (amended): `Settings.Validate` returns nil exactly when
`ActionTimeout`, `CleanupInterval`, `ReconciliationOperationTimeout`,
`ReschedulingInterval` and `PollingInterval` are each strictly greater than
`minTimePeriod` (one nanosecond, not zero), `DefaultPoolSize` is positive and
every pool override has positive size; `Lifespan` is not validated at all. -/
theorem settings_validate_eq_none_iff (s : Settings) :
    Settings.validate s = none ↔
      (minTimePeriod < s.actionTimeout ∧ minTimePeriod < s.cleanupInterval ∧
       minTimePeriod < s.reconciliationOperationTimeout ∧
       minTimePeriod < s.reschedulingInterval ∧ minTimePeriod < s.pollingInterval ∧
       0 < s.defaultPoolSize ∧ ∀ p ∈ s.pools, 0 < p.size) := by
  constructor
  · intro h
    unfold Settings.validate at h
    by_cases h1 : s.actionTimeout ≤ minTimePeriod
    · rw [if_pos h1] at h; exact Option.noConfusion h
    rw [if_neg h1] at h
    by_cases h2 : s.cleanupInterval ≤ minTimePeriod
    · rw [if_pos h2] at h; exact Option.noConfusion h
    rw [if_neg h2] at h
    by_cases h3 : s.reconciliationOperationTimeout ≤ minTimePeriod
    · rw [if_pos h3] at h; exact Option.noConfusion h
    rw [if_neg h3] at h
    by_cases h4 : s.reschedulingInterval ≤ minTimePeriod
    · rw [if_pos h4] at h; exact Option.noConfusion h
    rw [if_neg h4] at h
    by_cases h5 : s.pollingInterval ≤ minTimePeriod
    · rw [if_pos h5] at h; exact Option.noConfusion h
    rw [if_neg h5] at h
    by_cases h6 : s.defaultPoolSize ≤ 0
    · rw [if_pos h6] at h; exact Option.noConfusion h
    rw [if_neg h6] at h
    exact ⟨by omega, by omega, by omega, by omega, by omega, by omega,
      (validatePools_eq_none_iff s.pools).mp h⟩
  · intro h
    obtain ⟨a1, a2, a3, a4, a5, a6, a7⟩ := h
    unfold Settings.validate
    rw [if_neg (by omega), if_neg (by omega), if_neg (by omega), if_neg (by omega),
      if_neg (by omega), if_neg (by omega)]
    exact (validatePools_eq_none_iff s.pools).mpr a7

/-- Claim C8 counterexample: a settings value whose duration fields are all
one nanosecond (hence strictly greater than zero) and whose pool sizes are
positive is rejected by `Settings.Validate`, contradicting the claim that
validation succeeds exactly when every duration is greater than 0. -/
theorem settings_validate_rejects_positive_durations :
    (0 < (Settings.mk 1 1 1 1 1 1 1 []).actionTimeout ∧
     0 < (Settings.mk 1 1 1 1 1 1 1 []).reconciliationOperationTimeout ∧
     0 < (Settings.mk 1 1 1 1 1 1 1 []).cleanupInterval ∧
     0 < (Settings.mk 1 1 1 1 1 1 1 []).lifespan ∧
     0 < (Settings.mk 1 1 1 1 1 1 1 []).reschedulingInterval ∧
     0 < (Settings.mk 1 1 1 1 1 1 1 []).pollingInterval ∧
     0 < (Settings.mk 1 1 1 1 1 1 1 []).defaultPoolSize ∧
     (∀ p ∈ (Settings.mk 1 1 1 1 1 1 1 []).pools, 0 < p.size)) ∧
    Settings.validate (Settings.mk 1 1 1 1 1 1 1 []) ≠ none := by
  refine ⟨⟨by decide, by decide, by decide, by decide, by decide, by decide, by decide, ?_⟩, by decide⟩
  intro p hp
  simp at hp

/-! ## Claim C5 -/

/-- Claim C5: a broker PATCH whose freshly fetched catalog changes the
`catalog_id` of an entry while keeping its `catalog_name` unchanged fails
with 409 Conflict, and the stored broker row — its catalog blob and its
normalized entries — is exactly what it was before the PATCH. -/
theorem brokerPatch_conflict_rejected (broker : BrokerRow) (body : PatchBody)
    (blob : String) (fetched : List CatalogEntry) (n : Nat)
    (sp fp : CatalogEntry) (hsp : sp ∈ broker.entries) (hfp : fp ∈ fetched)
    (hname : fp.catalogName = sp.catalogName) (hid : fp.catalogID ≠ sp.catalogID) :
    (brokerPatch broker body blob fetched n).status = 409 ∧
    (brokerPatch broker body blob fetched n).broker = broker := by
  have hc : catalogConflict broker.entries fetched = true := by
    unfold catalogConflict
    rw [List.any_eq_true]
    refine ⟨fp, hfp, List.any_eq_true.mpr ⟨sp, hsp, ?_⟩⟩
    simp only [Bool.and_eq_true, beq_iff_eq, Bool.not_eq_true', beq_eq_false_iff_ne]
    exact ⟨hname.symm, fun e => hid e.symm⟩
  unfold brokerPatch
  simp [hc]

/-- Claim C5 witness: a concrete PATCH with the plan's `catalog_id` modified
but its `catalog_name` kept is rejected with 409 and the row survives. -/
theorem brokerPatch_conflict_rejected_witness :
    ((⟨"old-id", "planA"⟩ : CatalogEntry) ∈
      (BrokerRow.mk "b1" "old-blob" [⟨"old-id", "planA"⟩]).entries) ∧
    ((⟨"new-id", "planA"⟩ : CatalogEntry) ∈ [(⟨"new-id", "planA"⟩ : CatalogEntry)]) ∧
    (CatalogEntry.catalogName ⟨"new-id", "planA"⟩ =
      CatalogEntry.catalogName ⟨"old-id", "planA"⟩) ∧
    (CatalogEntry.catalogID ⟨"new-id", "planA"⟩ ≠
      CatalogEntry.catalogID ⟨"old-id", "planA"⟩) ∧
    ((brokerPatch (BrokerRow.mk "b1" "old-blob" [⟨"old-id", "planA"⟩]) emptyPatchBody
        "new-blob" [⟨"new-id", "planA"⟩] 0).status = 409 ∧
     (brokerPatch (BrokerRow.mk "b1" "old-blob" [⟨"old-id", "planA"⟩]) emptyPatchBody
        "new-blob" [⟨"new-id", "planA"⟩] 0).broker =
       BrokerRow.mk "b1" "old-blob" [⟨"old-id", "planA"⟩]) :=
  ⟨by decide, by decide, by decide, by decide,
    brokerPatch_conflict_rejected (BrokerRow.mk "b1" "old-blob" [⟨"old-id", "planA"⟩])
      emptyPatchBody "new-blob" [⟨"new-id", "planA"⟩] 0 ⟨"old-id", "planA"⟩
      ⟨"new-id", "planA"⟩ (by decide) (by decide) (by decide) (by decide)⟩

/-! ## Claim C6 -/

/-- Claim C6: deleting a broker that owns a plan referenced by at least one
service instance is refused with 409 `ExistingReferenceEntity`, and the
storage state (including the broker row) is unchanged by the failed
request. -/
theorem brokerDelete_refused_with_instances (st : DeleteState) (b : OwnedBroker)
    (i : InstanceRow) (hb : st.brokers.find? (fun x => x.id == b.id) = some b)
    (hi : i ∈ st.instances) (href : i.servicePlanID ∈ b.planIDs) :
    brokerDelete st b.id = (409, "ExistingReferenceEntity", st) := by
  unfold brokerDelete
  rw [hb]
  simp
  exact ⟨i, hi, href⟩

/-- Claim C6 witness: a concrete delete of a broker owning a referenced plan
is refused and the state survives. -/
theorem brokerDelete_refused_with_instances_witness :
    ((DeleteState.mk [⟨"b1", ["plan1"]⟩] [⟨"i1", "plan1"⟩]).brokers.find?
      (fun x => x.id == "b1") = some ⟨"b1", ["plan1"]⟩) ∧
    ((⟨"i1", "plan1"⟩ : InstanceRow) ∈
      (DeleteState.mk [⟨"b1", ["plan1"]⟩] [⟨"i1", "plan1"⟩]).instances) ∧
    (InstanceRow.servicePlanID ⟨"i1", "plan1"⟩ ∈
      OwnedBroker.planIDs ⟨"b1", ["plan1"]⟩) ∧
    brokerDelete (DeleteState.mk [⟨"b1", ["plan1"]⟩] [⟨"i1", "plan1"⟩]) "b1" =
      (409, "ExistingReferenceEntity",
        DeleteState.mk [⟨"b1", ["plan1"]⟩] [⟨"i1", "plan1"⟩]) :=
  ⟨by decide, by decide, by decide,
    brokerDelete_refused_with_instances
      (DeleteState.mk [⟨"b1", ["plan1"]⟩] [⟨"i1", "plan1"⟩]) ⟨"b1", ["plan1"]⟩
      ⟨"i1", "plan1"⟩ (by decide) (by decide) (by decide)⟩

/-! ## Claim C7 -/

/-- Claim C7: every PATCH against an existing broker performs exactly one
catalog fetch, whatever the body — in particular also for the empty body —
and whatever the outcome of the diff. -/
theorem brokerPatch_fetches_exactly_once (broker : BrokerRow) (body : PatchBody)
    (blob : String) (fetched : List CatalogEntry) (n : Nat) :
    (brokerPatch broker body blob fetched n).catalogFetches = n + 1 ∧
    (brokerPatch broker emptyPatchBody blob fetched n).catalogFetches = n + 1 := by
  unfold brokerPatch
  constructor <;> (split <;> rfl)

/-! ## Claim C10 -/

/-- Claim C10: converting a `types.Platform` with non-nil credentials and
basic credentials to a storage entity and back preserves all base fields,
type, name, description, activity fields and the basic username and
password; and `ToObject` always produces non-nil credentials and basic
credentials, whatever the stored entity holds. -/
theorem platform_entity_roundtrip (platform : TypesPlatform)
    (creds : Credentials) (basic : Basic)
    (hc : platform.credentials = some creds) (hb : creds.basic = some basic) :
    ((PGPlatform.fromObject platform).toObject.id = platform.id ∧
     (PGPlatform.fromObject platform).toObject.createdAt = platform.createdAt ∧
     (PGPlatform.fromObject platform).toObject.updatedAt = platform.updatedAt ∧
     (PGPlatform.fromObject platform).toObject.pagingSequence = platform.pagingSequence ∧
     (PGPlatform.fromObject platform).toObject.ready = platform.ready ∧
     (PGPlatform.fromObject platform).toObject.type = platform.type ∧
     (PGPlatform.fromObject platform).toObject.name = platform.name ∧
     (PGPlatform.fromObject platform).toObject.description = platform.description ∧
     (PGPlatform.fromObject platform).toObject.active = platform.active ∧
     (PGPlatform.fromObject platform).toObject.lastActive = platform.lastActive ∧
     (PGPlatform.fromObject platform).toObject.credentials =
       some ⟨some ⟨basic.username, basic.password⟩, copyChecksum32 creds.checksum⟩) ∧
    (∀ e : PGPlatform, ∃ c b, (PGPlatform.toObject e).credentials = some c ∧
      c.basic = some b) := by
  constructor
  · unfold PGPlatform.fromObject PGPlatform.toObject
    rw [hc]
    by_cases hd : platform.description = "" <;>
      simp [hd, toNullString, hb]
  · intro e
    exact ⟨_, _, rfl, rfl⟩

/-- Claim C10 witness: a concrete platform with basic credentials
round-trips. -/
theorem platform_entity_roundtrip_witness :
    ((TypesPlatform.mk "p1" 3 4 7 true "kubernetes" "cluster" "desc"
        (some ⟨some ⟨"user", "pass"⟩, [9, 9]⟩) true 11).credentials =
      some ⟨some ⟨"user", "pass"⟩, [9, 9]⟩) ∧
    ((Credentials.mk (some ⟨"user", "pass"⟩) [9, 9]).basic = some ⟨"user", "pass"⟩) ∧
    (((PGPlatform.fromObject (TypesPlatform.mk "p1" 3 4 7 true "kubernetes" "cluster"
        "desc" (some ⟨some ⟨"user", "pass"⟩, [9, 9]⟩) true 11)).toObject.id =
        (TypesPlatform.mk "p1" 3 4 7 true "kubernetes" "cluster" "desc"
          (some ⟨some ⟨"user", "pass"⟩, [9, 9]⟩) true 11).id ∧
      (PGPlatform.fromObject (TypesPlatform.mk "p1" 3 4 7 true "kubernetes" "cluster"
        "desc" (some ⟨some ⟨"user", "pass"⟩, [9, 9]⟩) true 11)).toObject.createdAt =
        (TypesPlatform.mk "p1" 3 4 7 true "kubernetes" "cluster" "desc"
          (some ⟨some ⟨"user", "pass"⟩, [9, 9]⟩) true 11).createdAt ∧
      (PGPlatform.fromObject (TypesPlatform.mk "p1" 3 4 7 true "kubernetes" "cluster"
        "desc" (some ⟨some ⟨"user", "pass"⟩, [9, 9]⟩) true 11)).toObject.updatedAt =
        (TypesPlatform.mk "p1" 3 4 7 true "kubernetes" "cluster" "desc"
          (some ⟨some ⟨"user", "pass"⟩, [9, 9]⟩) true 11).updatedAt ∧
      (PGPlatform.fromObject (TypesPlatform.mk "p1" 3 4 7 true "kubernetes" "cluster"
        "desc" (some ⟨some ⟨"user", "pass"⟩, [9, 9]⟩) true 11)).toObject.pagingSequence =
        (TypesPlatform.mk "p1" 3 4 7 true "kubernetes" "cluster" "desc"
          (some ⟨some ⟨"user", "pass"⟩, [9, 9]⟩) true 11).pagingSequence ∧
      (PGPlatform.fromObject (TypesPlatform.mk "p1" 3 4 7 true "kubernetes" "cluster"
        "desc" (some ⟨some ⟨"user", "pass"⟩, [9, 9]⟩) true 11)).toObject.ready =
        (TypesPlatform.mk "p1" 3 4 7 true "kubernetes" "cluster" "desc"
          (some ⟨some ⟨"user", "pass"⟩, [9, 9]⟩) true 11).ready ∧
      (PGPlatform.fromObject (TypesPlatform.mk "p1" 3 4 7 true "kubernetes" "cluster"
        "desc" (some ⟨some ⟨"user", "pass"⟩, [9, 9]⟩) true 11)).toObject.type =
        (TypesPlatform.mk "p1" 3 4 7 true "kubernetes" "cluster" "desc"
          (some ⟨some ⟨"user", "pass"⟩, [9, 9]⟩) true 11).type ∧
      (PGPlatform.fromObject (TypesPlatform.mk "p1" 3 4 7 true "kubernetes" "cluster"
        "desc" (some ⟨some ⟨"user", "pass"⟩, [9, 9]⟩) true 11)).toObject.name =
        (TypesPlatform.mk "p1" 3 4 7 true "kubernetes" "cluster" "desc"
          (some ⟨some ⟨"user", "pass"⟩, [9, 9]⟩) true 11).name ∧
      (PGPlatform.fromObject (TypesPlatform.mk "p1" 3 4 7 true "kubernetes" "cluster"
        "desc" (some ⟨some ⟨"user", "pass"⟩, [9, 9]⟩) true 11)).toObject.description =
        (TypesPlatform.mk "p1" 3 4 7 true "kubernetes" "cluster" "desc"
          (some ⟨some ⟨"user", "pass"⟩, [9, 9]⟩) true 11).description ∧
      (PGPlatform.fromObject (TypesPlatform.mk "p1" 3 4 7 true "kubernetes" "cluster"
        "desc" (some ⟨some ⟨"user", "pass"⟩, [9, 9]⟩) true 11)).toObject.active =
        (TypesPlatform.mk "p1" 3 4 7 true "kubernetes" "cluster" "desc"
          (some ⟨some ⟨"user", "pass"⟩, [9, 9]⟩) true 11).active ∧
      (PGPlatform.fromObject (TypesPlatform.mk "p1" 3 4 7 true "kubernetes" "cluster"
        "desc" (some ⟨some ⟨"user", "pass"⟩, [9, 9]⟩) true 11)).toObject.lastActive =
        (TypesPlatform.mk "p1" 3 4 7 true "kubernetes" "cluster" "desc"
          (some ⟨some ⟨"user", "pass"⟩, [9, 9]⟩) true 11).lastActive ∧
      (PGPlatform.fromObject (TypesPlatform.mk "p1" 3 4 7 true "kubernetes" "cluster"
        "desc" (some ⟨some ⟨"user", "pass"⟩, [9, 9]⟩) true 11)).toObject.credentials =
        some ⟨some ⟨(Basic.mk "user" "pass").username, (Basic.mk "user" "pass").password⟩,
          copyChecksum32 (Credentials.mk (some ⟨"user", "pass"⟩) [9, 9]).checksum⟩) ∧
     ∀ e : PGPlatform, ∃ c b, (PGPlatform.toObject e).credentials = some c ∧
       c.basic = some b) :=
  ⟨rfl, rfl,
    platform_entity_roundtrip
      (TypesPlatform.mk "p1" 3 4 7 true "kubernetes" "cluster" "desc"
        (some ⟨some ⟨"user", "pass"⟩, [9, 9]⟩) true 11)
      (Credentials.mk (some ⟨"user", "pass"⟩) [9, 9]) (Basic.mk "user" "pass") rfl rfl⟩

/-! ## Helper lemmas: idempotence of the reconciler -/

/-- Filtering twice with the same predicate changes nothing. -/
theorem filter_idem {α : Type} (p : α → Bool) (l : List α) :
    (l.filter p).filter p = l.filter p := by
  rw [List.filter_filter]
  apply List.filter_congr
  intro x hx
  rw [Bool.and_self]

/-- Filtering a filtered list by the negated predicate yields nothing. -/
theorem filter_not_filter {α : Type} (p : α → Bool) (l : List α) :
    (l.filter p).filter (fun a => !(p a)) = [] := by
  rw [List.filter_eq_nil_iff]
  intro a ha
  rw [(List.mem_filter.mp ha).2]
  simp

/-- Case A is a per-plan fixpoint: rerunning it on its own output (kept rows
followed by created rows) keeps everything, deletes nothing and creates
nothing, for any counter. -/
theorem resyncPublicPlanVisibilities_rerun (b : Bool) (planID brokerID : String)
    (vs : List Visibility) (ctr ctr2 : Nat) :
    resyncPublicPlanVisibilities b planID brokerID
      ((resyncPublicPlanVisibilities b planID brokerID vs ctr).1 ++
       (resyncPublicPlanVisibilities b planID brokerID vs ctr).2.2.1) ctr2 =
      ((resyncPublicPlanVisibilities b planID brokerID vs ctr).1 ++
       (resyncPublicPlanVisibilities b planID brokerID vs ctr).2.2.1, [], [], ctr2) := by
  unfold resyncPublicPlanVisibilities
  rw [publicPlanScan_eq, publicPlanScan_eq]
  cases b with
  | false =>
    simp only [Bool.false_and, Bool.and_self, if_neg (by simp : ¬((false && true) = true))]
    simp [filter_idem, filter_not_filter, List.filter_append]
  | true =>
    cases h : (vs.any (fun v => v.platformID == "")) with
    | true =>
      obtain ⟨w, hw, hwp⟩ := List.any_eq_true.mp h
      simp only [h]
      have hk : ((vs.filter (fun v => v.platformID == "")).any
          (fun v => v.platformID == "")) = true :=
        List.any_eq_true.mpr ⟨w, List.mem_filter.mpr ⟨hw, hwp⟩, hwp⟩
      simp [filter_idem, filter_not_filter, hk]
    | false =>
      have hnil : vs.filter (fun v => v.platformID == "") = [] :=
        List.filter_eq_nil_iff.mpr (List.any_eq_false.mp h)
      simp [h, hnil, persistVisibility]

/-- Case B is a per-plan fixpoint: rerunning it on its own output keeps
everything, deletes nothing and creates nothing, for any counter. -/
theorem resyncPlanVisibilitiesWithSupportedPlatforms_rerun (b : Bool)
    (planID brokerID : String) (vs : List Visibility) (platforms : List Platform)
    (supportedPlatformTypes : List String) (ctr ctr2 : Nat) :
    resyncPlanVisibilitiesWithSupportedPlatforms b planID brokerID
      ((resyncPlanVisibilitiesWithSupportedPlatforms b planID brokerID vs platforms
          supportedPlatformTypes ctr).1 ++
       (resyncPlanVisibilitiesWithSupportedPlatforms b planID brokerID vs platforms
          supportedPlatformTypes ctr).2.2.1) platforms supportedPlatformTypes ctr2 =
      ((resyncPlanVisibilitiesWithSupportedPlatforms b planID brokerID vs platforms
          supportedPlatformTypes ctr).1 ++
       (resyncPlanVisibilitiesWithSupportedPlatforms b planID brokerID vs platforms
          supportedPlatformTypes ctr).2.2.1, [], [], ctr2) := by
  cases b with
  | false =>
    have hnp := resyncVisLoop_not_public vs
      (platforms.filter (fun p => supportedPlatformTypes.contains p.type))
    have hnp2 := resyncVisLoop_not_public
      (vs.filter (fun v =>
        (platformsAnyMatchesVisibility
          (platforms.filter (fun p => supportedPlatformTypes.contains p.type)) v).isSome &&
        !v.labels.isEmpty))
      (platforms.filter (fun p => supportedPlatformTypes.contains p.type))
    unfold resyncPlanVisibilitiesWithSupportedPlatforms
    simp only [hnp, hnp2, Bool.false_eq_true, if_false, List.append_nil]
    rw [filter_idem, filter_not_filter]
  | true =>
    obtain ⟨matched, hperm, hmap, hlab⟩ := resyncVisLoop_public_spec vs
      (platforms.filter (fun p => supportedPlatformTypes.contains p.type))
    obtain ⟨hcmap, hclab, hctr⟩ := createForPlatforms_spec
      (resyncVisLoop true vs
        (platforms.filter (fun p => supportedPlatformTypes.contains p.type))).2.2
      planID brokerID ctr
    have hall : ∀ v ∈ (resyncVisLoop true vs
        (platforms.filter (fun p => supportedPlatformTypes.contains p.type))).1 ++
        (createForPlatforms (resyncVisLoop true vs
          (platforms.filter (fun p => supportedPlatformTypes.contains p.type))).2.2
          planID brokerID ctr).1, v.labels = [] := by
      intro v hv
      rcases List.mem_append.mp hv with hv | hv
      · exact hlab v hv
      · exact (hclab v hv).1
    have hpermX : (((resyncVisLoop true vs
        (platforms.filter (fun p => supportedPlatformTypes.contains p.type))).1 ++
        (createForPlatforms (resyncVisLoop true vs
          (platforms.filter (fun p => supportedPlatformTypes.contains p.type))).2.2
          planID brokerID ctr).1).map (fun v => v.platformID)).Perm
        ((platforms.filter (fun p => supportedPlatformTypes.contains p.type)).map
          (fun p => p.id)) := by
      rw [List.map_append, hmap, hcmap, ← List.map_append]
      exact (hperm.map (fun p => p.id)).symm
    have hcons := resyncVisLoop_consume
      ((resyncVisLoop true vs
        (platforms.filter (fun p => supportedPlatformTypes.contains p.type))).1 ++
        (createForPlatforms (resyncVisLoop true vs
          (platforms.filter (fun p => supportedPlatformTypes.contains p.type))).2.2
          planID brokerID ctr).1)
      (platforms.filter (fun p => supportedPlatformTypes.contains p.type)) hall hpermX
    unfold resyncPlanVisibilitiesWithSupportedPlatforms
    simp only [hcons, if_true]
    simp [createForPlatforms]

/-- The per-plan dispatch is a fixpoint on its own output, for any counter. -/
theorem resyncPlanDispatch_rerun (b : Bool) (types : List String)
    (planID brokerID : String) (vs : List Visibility) (platforms : List Platform)
    (ctr ctr2 : Nat) :
    resyncPlanDispatch b types planID brokerID
      ((resyncPlanDispatch b types planID brokerID vs platforms ctr).1 ++
       (resyncPlanDispatch b types planID brokerID vs platforms ctr).2.2.1)
      platforms ctr2 =
      ((resyncPlanDispatch b types planID brokerID vs platforms ctr).1 ++
       (resyncPlanDispatch b types planID brokerID vs platforms ctr).2.2.1,
       [], [], ctr2) := by
  unfold resyncPlanDispatch
  by_cases h : types.isEmpty
  · simp only [if_pos h]
    exact resyncPublicPlanVisibilities_rerun b planID brokerID vs ctr ctr2
  · simp only [if_neg h]
    exact resyncPlanVisibilitiesWithSupportedPlatforms_rerun b planID brokerID vs
      platforms types ctr ctr2

/-- Kept and created rows of the per-plan dispatch stay within the plan. -/
theorem resyncPlanDispatch_spid (b : Bool) (types : List String)
    (planID brokerID : String) (vs : List Visibility) (platforms : List Platform)
    (ctr : Nat) (h : ∀ v ∈ vs, v.servicePlanID = planID) :
    (∀ v ∈ (resyncPlanDispatch b types planID brokerID vs platforms ctr).1,
      v.servicePlanID = planID) ∧
    (∀ v ∈ (resyncPlanDispatch b types planID brokerID vs platforms ctr).2.2.1,
      v.servicePlanID = planID) := by
  unfold resyncPlanDispatch
  by_cases ht : types.isEmpty
  · simp only [if_pos ht]
    unfold resyncPublicPlanVisibilities
    simp only [publicPlanScan_eq]
    by_cases hb : (b && !(b && vs.any (fun v => v.platformID == ""))) = true
    · simp only [if_pos hb]
      refine ⟨?_, ?_⟩
      · intro v hv; exact h v (List.mem_filter.mp hv).1
      · intro v hv
        simp only [List.mem_singleton] at hv
        rw [hv]
        rfl
    · simp only [if_neg hb]
      refine ⟨?_, ?_⟩
      · intro v hv; exact h v (List.mem_filter.mp hv).1
      · intro v hv; simp at hv
  · simp only [if_neg ht]
    unfold resyncPlanVisibilitiesWithSupportedPlatforms
    cases b with
    | false =>
      simp only [resyncVisLoop_not_public, Bool.false_eq_true, if_false]
      refine ⟨?_, ?_⟩
      · intro v hv; exact h v (List.mem_filter.mp hv).1
      · intro v hv; simp at hv
    | true =>
      simp only [if_true]
      refine ⟨?_, ?_⟩
      · intro v hv
        exact h v ((resyncVisLoop_perm_partition true vs
          (platforms.filter (fun p => types.contains p.type))).mem_iff.mp
          (List.mem_append_left _ hv))
      · intro v hv
        exact ((createForPlatforms_spec (resyncVisLoop true vs
          (platforms.filter (fun p => types.contains p.type))).2.2
          planID brokerID ctr).2.1 v hv).2

/-- The plan's rows after applying a plan outcome are exactly the kept rows
followed by the created rows, provided those stay within the plan. -/
theorem applyPlanResult_filter_self (vs : List Visibility) (planID : String)
    (kept created : List Visibility)
    (hk : ∀ v ∈ kept, v.servicePlanID = planID)
    (hc : ∀ v ∈ created, v.servicePlanID = planID) :
    (applyPlanResult vs planID kept created).filter
      (fun v => v.servicePlanID == planID) = kept ++ created := by
  unfold applyPlanResult
  rw [List.filter_append, List.filter_append]
  have h1 : (vs.filter (fun v => !(v.servicePlanID == planID))).filter
      (fun v => v.servicePlanID == planID) = [] := by
    rw [List.filter_eq_nil_iff]
    intro a ha
    have h2 := (List.mem_filter.mp ha).2
    simp at h2 ⊢
    exact h2
  have h2 : kept.filter (fun v => v.servicePlanID == planID) = kept :=
    List.filter_eq_self.mpr (fun a ha => by simp [hk a ha])
  have h3 : created.filter (fun v => v.servicePlanID == planID) = created :=
    List.filter_eq_self.mpr (fun a ha => by simp [hc a ha])
  rw [h1, h2, h3, List.nil_append]

/-- Applying one plan's outcome leaves every other plan's rows untouched. -/
theorem applyPlanResult_filter_other (vs : List Visibility) (planID q : String)
    (kept created : List Visibility) (hq : q ≠ planID)
    (hk : ∀ v ∈ kept, v.servicePlanID = planID)
    (hc : ∀ v ∈ created, v.servicePlanID = planID) :
    (applyPlanResult vs planID kept created).filter
      (fun v => v.servicePlanID == q) = vs.filter (fun v => v.servicePlanID == q) := by
  unfold applyPlanResult
  rw [List.filter_append, List.filter_append]
  have h1 : (vs.filter (fun v => !(v.servicePlanID == planID))).filter
      (fun v => v.servicePlanID == q) = vs.filter (fun v => v.servicePlanID == q) := by
    rw [List.filter_filter]
    apply List.filter_congr
    intro x hx
    by_cases hxq : x.servicePlanID = q
    · simp [hxq, hq]
    · simp [hxq]
  have h2 : kept.filter (fun v => v.servicePlanID == q) = [] := by
    rw [List.filter_eq_nil_iff]
    intro a ha
    simp [hk a ha]
    exact fun e => hq e.symm
  have h3 : created.filter (fun v => v.servicePlanID == q) = [] := by
    rw [List.filter_eq_nil_iff]
    intro a ha
    simp [hc a ha]
    exact fun e => hq e.symm
  rw [h1, h2, h3, List.append_nil, List.append_nil]

/-- Re-applying a plan outcome that keeps every row and creates nothing only
reorders the table. -/
theorem applyPlanResult_keepall_perm (vs : List Visibility) (planID : String) :
    (applyPlanResult vs planID
      (vs.filter (fun v => v.servicePlanID == planID)) []).Perm vs := by
  unfold applyPlanResult
  rw [List.append_nil]
  have hnn : vs.filter (fun v => !(!(v.servicePlanID == planID))) =
      vs.filter (fun v => v.servicePlanID == planID) := by
    apply List.filter_congr
    intro x hx
    rw [Bool.not_not]
  have hp := List.filter_append_perm (fun v => !(v.servicePlanID == planID)) vs
  rw [hnn] at hp
  exact hp

/-- A resync run never touches the platform table. -/
theorem resyncFlat_platforms
    (f : ServiceBroker → ServiceOffering → ServicePlan → Bool)
    (g : ServicePlan → List String) (broker : ServiceBroker)
    (L : List (ServiceOffering × ServicePlan)) :
    ∀ st : SMState, (resyncFlat f g broker L st).1.platforms = st.platforms := by
  induction L with
  | nil => intro st; rfl
  | cons pr rest ih =>
    intro st
    exact (ih (resyncPlanStep (f broker pr.1 pr.2) (g pr.2) pr.2.id broker.id st).1).trans rfl

/-- A resync run over plans not containing `q` leaves plan `q`'s rows
exactly as they were. -/
theorem resyncFlat_preserves_other
    (f : ServiceBroker → ServiceOffering → ServicePlan → Bool)
    (g : ServicePlan → List String) (broker : ServiceBroker)
    (L : List (ServiceOffering × ServicePlan)) :
    ∀ (st : SMState) (q : String), q ∉ L.map (fun pr => pr.2.id) →
      (resyncFlat f g broker L st).1.visibilities.filter
        (fun v => v.servicePlanID == q) =
      st.visibilities.filter (fun v => v.servicePlanID == q) := by
  induction L with
  | nil => intro st q hq; rfl
  | cons pr rest ih =>
    intro st q hq
    simp only [List.map_cons, List.mem_cons] at hq
    push_neg at hq
    have hsp := resyncPlanDispatch_spid (f broker pr.1 pr.2) (g pr.2) pr.2.id broker.id
      (st.visibilities.filter (fun v => v.servicePlanID == pr.2.id)) st.platforms st.ctr
      (fun v hv => by simpa using (List.mem_filter.mp hv).2)
    have hstep : (resyncPlanStep (f broker pr.1 pr.2) (g pr.2) pr.2.id
        broker.id st).1.visibilities.filter (fun v => v.servicePlanID == q) =
        st.visibilities.filter (fun v => v.servicePlanID == q) :=
      applyPlanResult_filter_other st.visibilities pr.2.id q _ _ hq.1 hsp.1 hsp.2
    exact (ih (resyncPlanStep (f broker pr.1 pr.2) (g pr.2) pr.2.id broker.id st).1
      q hq.2).trans hstep

/-- Splitting a resync run over an appended plan list. -/
theorem resyncFlat_append
    (f : ServiceBroker → ServiceOffering → ServicePlan → Bool)
    (g : ServicePlan → List String) (broker : ServiceBroker)
    (l1 l2 : List (ServiceOffering × ServicePlan)) :
    ∀ st : SMState,
      resyncFlat f g broker (l1 ++ l2) st =
        ((resyncFlat f g broker l2 (resyncFlat f g broker l1 st).1).1,
         (resyncFlat f g broker l1 st).2.1 ++
           (resyncFlat f g broker l2 (resyncFlat f g broker l1 st).1).2.1,
         (resyncFlat f g broker l1 st).2.2 ++
           (resyncFlat f g broker l2 (resyncFlat f g broker l1 st).1).2.2) := by
  induction l1 with
  | nil => intro st; simp [resyncFlat]
  | cons pr rest ih =>
    intro st
    simp [resyncFlat, ih]

/-- The inner plans loop is the flat run over the (offering, plan) pairs of
one offering. -/
theorem resyncPlansLoop_eq_flat
    (f : ServiceBroker → ServiceOffering → ServicePlan → Bool)
    (g : ServicePlan → List String) (broker : ServiceBroker)
    (so : ServiceOffering) (plans : List ServicePlan) :
    ∀ st : SMState,
      resyncPlansLoop f g broker so plans st =
        resyncFlat f g broker (plans.map (fun pl => (so, pl))) st := by
  induction plans with
  | nil => intro st; rfl
  | cons pl rest ih =>
    intro st
    simp only [resyncPlansLoop, resyncFlat, List.map_cons]
    rw [ih]

/-- The nested loops of `resync` equal the flat run over the flattened
catalog. -/
theorem resyncServicesLoop_eq_flat
    (f : ServiceBroker → ServiceOffering → ServicePlan → Bool)
    (g : ServicePlan → List String) (broker : ServiceBroker)
    (sos : List ServiceOffering) :
    ∀ st : SMState,
      resyncServicesLoop f g broker sos st =
        resyncFlat f g broker
          (sos.flatMap (fun so => so.plans.map (fun pl => (so, pl)))) st := by
  induction sos with
  | nil => intro st; rfl
  | cons so rest ih =>
    intro st
    simp only [resyncServicesLoop, List.flatMap_cons]
    rw [resyncPlansLoop_eq_flat, ih, resyncFlat_append]

/-- `resync` equals the flat run over `brokerPlanPairs`. -/
theorem resync_eq_flat
    (f : ServiceBroker → ServiceOffering → ServicePlan → Bool)
    (g : ServicePlan → List String) (broker : ServiceBroker) (st : SMState) :
    resync f g broker st = resyncFlat f g broker (brokerPlanPairs broker) st := by
  unfold resync brokerPlanPairs
  exact resyncServicesLoop_eq_flat f g broker broker.services st

/-- The plan ids of the flattened catalog are `brokerPlanIDs`. -/
theorem brokerPlanPairs_ids (broker : ServiceBroker) :
    (brokerPlanPairs broker).map (fun pr => pr.2.id) = brokerPlanIDs broker := by
  unfold brokerPlanPairs brokerPlanIDs
  induction broker.services with
  | nil => rfl
  | cons so rest ih =>
    simp only [List.flatMap_cons, List.map_append, ih, List.map_map]
    rfl

/-- A resync run on a state in which every plan of the (duplicate-free) list
is already reconciled deletes nothing, creates nothing, keeps the counter and
only reorders the visibility table. -/
theorem resyncFlat_noop
    (f : ServiceBroker → ServiceOffering → ServicePlan → Bool)
    (g : ServicePlan → List String) (broker : ServiceBroker)
    (L : List (ServiceOffering × ServicePlan)) :
    ∀ st : SMState,
      (L.map (fun pr => pr.2.id)).Nodup →
      (∀ pr ∈ L, ∀ ctr2 : Nat,
        resyncPlanDispatch (f broker pr.1 pr.2) (g pr.2) pr.2.id broker.id
          (st.visibilities.filter (fun v => v.servicePlanID == pr.2.id))
          st.platforms ctr2 =
          (st.visibilities.filter (fun v => v.servicePlanID == pr.2.id),
           [], [], ctr2)) →
      (resyncFlat f g broker L st).1.visibilities.Perm st.visibilities ∧
      (resyncFlat f g broker L st).1.ctr = st.ctr ∧
      (resyncFlat f g broker L st).2.1 = [] ∧
      (resyncFlat f g broker L st).2.2 = [] := by
  induction L with
  | nil =>
    intro st _ _
    exact ⟨List.Perm.refl _, rfl, rfl, rfl⟩
  | cons pr rest ih =>
    intro st hnd hfix
    simp only [List.map_cons, List.nodup_cons] at hnd
    have hfixhead := hfix pr (by simp) st.ctr
    have hstep : resyncPlanStep (f broker pr.1 pr.2) (g pr.2) pr.2.id broker.id st =
        ({ visibilities := applyPlanResult st.visibilities pr.2.id
             (st.visibilities.filter (fun v => v.servicePlanID == pr.2.id)) []
         , platforms := st.platforms
         , ctr := st.ctr }, [], []) := by
      unfold resyncPlanStep
      simp only [hfixhead]
    have hRvis : (applyPlanResult st.visibilities pr.2.id
        (st.visibilities.filter (fun v => v.servicePlanID == pr.2.id)) []).Perm
        st.visibilities := applyPlanResult_keepall_perm st.visibilities pr.2.id
    have hfix2 : ∀ pr2 ∈ rest, ∀ ctr2 : Nat,
        resyncPlanDispatch (f broker pr2.1 pr2.2) (g pr2.2) pr2.2.id broker.id
          ((resyncPlanStep (f broker pr.1 pr.2) (g pr.2) pr.2.id
            broker.id st).1.visibilities.filter
            (fun v => v.servicePlanID == pr2.2.id))
          (resyncPlanStep (f broker pr.1 pr.2) (g pr.2) pr.2.id
            broker.id st).1.platforms ctr2 =
          ((resyncPlanStep (f broker pr.1 pr.2) (g pr.2) pr.2.id
            broker.id st).1.visibilities.filter
            (fun v => v.servicePlanID == pr2.2.id), [], [], ctr2) := by
      intro pr2 hm ctr2
      have hne : pr2.2.id ≠ pr.2.id := by
        intro he
        exact hnd.1 (he ▸ List.mem_map_of_mem (fun pr => pr.2.id) hm)
      have hq : (resyncPlanStep (f broker pr.1 pr.2) (g pr.2) pr.2.id
          broker.id st).1.visibilities.filter
          (fun v => v.servicePlanID == pr2.2.id) =
          st.visibilities.filter (fun v => v.servicePlanID == pr2.2.id) := by
        rw [hstep]
        exact applyPlanResult_filter_other st.visibilities pr.2.id pr2.2.id _ [] hne
          (fun v hv => by simpa using (List.mem_filter.mp hv).2)
          (by intro v hv; simp at hv)
      rw [hq, hstep]
      exact hfix pr2 (List.mem_cons_of_mem _ hm) ctr2
    have htail := ih (resyncPlanStep (f broker pr.1 pr.2) (g pr.2) pr.2.id
      broker.id st).1 hnd.2 hfix2
    refine ⟨?_, ?_, ?_, ?_⟩
    · have h1 : (resyncFlat f g broker (pr :: rest) st).1 =
          (resyncFlat f g broker rest (resyncPlanStep (f broker pr.1 pr.2) (g pr.2)
            pr.2.id broker.id st).1).1 := rfl
      rw [h1]
      refine htail.1.trans ?_
      rw [hstep]
      exact hRvis
    · have h1 : (resyncFlat f g broker (pr :: rest) st).1 =
          (resyncFlat f g broker rest (resyncPlanStep (f broker pr.1 pr.2) (g pr.2)
            pr.2.id broker.id st).1).1 := rfl
      rw [h1, htail.2.1, hstep]
    · have h1 : (resyncFlat f g broker (pr :: rest) st).2.1 =
          (resyncPlanStep (f broker pr.1 pr.2) (g pr.2) pr.2.id broker.id st).2.1 ++
          (resyncFlat f g broker rest (resyncPlanStep (f broker pr.1 pr.2) (g pr.2)
            pr.2.id broker.id st).1).2.1 := rfl
      rw [h1, htail.2.2.1, hstep]
      rfl
    · have h1 : (resyncFlat f g broker (pr :: rest) st).2.2 =
          (resyncPlanStep (f broker pr.1 pr.2) (g pr.2) pr.2.id broker.id st).2.2 ++
          (resyncFlat f g broker rest (resyncPlanStep (f broker pr.1 pr.2) (g pr.2)
            pr.2.id broker.id st).1).2.2 := rfl
      rw [h1, htail.2.2.2, hstep]
      rfl

/-- After one resync run over a duplicate-free plan list, every plan of the
list is reconciled: rerunning its dispatch on the resulting state keeps all
of that plan's rows and deletes and creates nothing, for any counter. -/
theorem resyncFlat_establishes
    (f : ServiceBroker → ServiceOffering → ServicePlan → Bool)
    (g : ServicePlan → List String) (broker : ServiceBroker)
    (L : List (ServiceOffering × ServicePlan)) :
    ∀ st : SMState, (L.map (fun pr => pr.2.id)).Nodup →
      ∀ pr ∈ L, ∀ ctr2 : Nat,
        resyncPlanDispatch (f broker pr.1 pr.2) (g pr.2) pr.2.id broker.id
          ((resyncFlat f g broker L st).1.visibilities.filter
            (fun v => v.servicePlanID == pr.2.id)) st.platforms ctr2 =
          ((resyncFlat f g broker L st).1.visibilities.filter
            (fun v => v.servicePlanID == pr.2.id), [], [], ctr2) := by
  induction L with
  | nil =>
    intro st _ pr hpr
    simp at hpr
  | cons prh rest ih =>
    intro st hnd pr hpr ctr2
    simp only [List.map_cons, List.nodup_cons] at hnd
    have hflatcons : (resyncFlat f g broker (prh :: rest) st).1 =
        (resyncFlat f g broker rest (resyncPlanStep (f broker prh.1 prh.2) (g prh.2)
          prh.2.id broker.id st).1).1 := rfl
    rcases List.mem_cons.mp hpr with rfl | hpr2
    · have hin : ∀ v ∈ st.visibilities.filter
          (fun v => v.servicePlanID == pr.2.id), v.servicePlanID = pr.2.id :=
        fun v hv => by simpa using (List.mem_filter.mp hv).2
      have hsp := resyncPlanDispatch_spid (f broker pr.1 pr.2) (g pr.2) pr.2.id
        broker.id (st.visibilities.filter (fun v => v.servicePlanID == pr.2.id))
        st.platforms st.ctr hin
      have hself : (resyncPlanStep (f broker pr.1 pr.2) (g pr.2) pr.2.id
          broker.id st).1.visibilities.filter
          (fun v => v.servicePlanID == pr.2.id) =
          (resyncPlanDispatch (f broker pr.1 pr.2) (g pr.2) pr.2.id broker.id
            (st.visibilities.filter (fun v => v.servicePlanID == pr.2.id))
            st.platforms st.ctr).1 ++
          (resyncPlanDispatch (f broker pr.1 pr.2) (g pr.2) pr.2.id broker.id
            (st.visibilities.filter (fun v => v.servicePlanID == pr.2.id))
            st.platforms st.ctr).2.2.1 :=
        applyPlanResult_filter_self st.visibilities pr.2.id _ _ hsp.1 hsp.2
      have hpres := resyncFlat_preserves_other f g broker rest
        (resyncPlanStep (f broker pr.1 pr.2) (g pr.2) pr.2.id broker.id st).1
        pr.2.id hnd.1
      rw [hflatcons, hpres, hself]
      exact resyncPlanDispatch_rerun (f broker pr.1 pr.2) (g pr.2) pr.2.id broker.id
        (st.visibilities.filter (fun v => v.servicePlanID == pr.2.id))
        st.platforms st.ctr ctr2
    · have hres := ih (resyncPlanStep (f broker prh.1 prh.2) (g prh.2) prh.2.id
        broker.id st).1 hnd.2 pr hpr2 ctr2
      rw [hflatcons]
      exact hres

/-! ## Claim C3 -/

/-- Claim C3: the reconciler is idempotent.  For every broker (with
duplicate-free plan ids, as storage guarantees), platform set and starting
visibility state, running `resync` a second time on the state produced by the
first run deletes nothing and creates nothing, keeps the platform table and
the id counter, and leaves the visibility set unchanged (the table is equal
as a set — a permutation of the first run's rows). -/
theorem resync_idempotent
    (f : ServiceBroker → ServiceOffering → ServicePlan → Bool)
    (g : ServicePlan → List String) (broker : ServiceBroker) (st : SMState)
    (hnd : (brokerPlanIDs broker).Nodup) :
    (resync f g broker (resync f g broker st).1).2.1 = [] ∧
    (resync f g broker (resync f g broker st).1).2.2 = [] ∧
    (resync f g broker (resync f g broker st).1).1.visibilities.Perm
      (resync f g broker st).1.visibilities ∧
    (resync f g broker (resync f g broker st).1).1.platforms =
      (resync f g broker st).1.platforms ∧
    (resync f g broker (resync f g broker st).1).1.ctr =
      (resync f g broker st).1.ctr := by
  have hids : ((brokerPlanPairs broker).map (fun pr => pr.2.id)).Nodup := by
    rw [brokerPlanPairs_ids]
    exact hnd
  have hest := resyncFlat_establishes f g broker (brokerPlanPairs broker) st hids
  have hplat := resyncFlat_platforms f g broker (brokerPlanPairs broker) st
  have hfix : ∀ pr ∈ brokerPlanPairs broker, ∀ ctr2 : Nat,
      resyncPlanDispatch (f broker pr.1 pr.2) (g pr.2) pr.2.id broker.id
        ((resyncFlat f g broker (brokerPlanPairs broker) st).1.visibilities.filter
          (fun v => v.servicePlanID == pr.2.id))
        (resyncFlat f g broker (brokerPlanPairs broker) st).1.platforms ctr2 =
        ((resyncFlat f g broker (brokerPlanPairs broker) st).1.visibilities.filter
          (fun v => v.servicePlanID == pr.2.id), [], [], ctr2) := by
    intro pr hpr ctr2
    rw [hplat]
    exact hest pr hpr ctr2
  have hno := resyncFlat_noop f g broker (brokerPlanPairs broker)
    (resyncFlat f g broker (brokerPlanPairs broker) st).1 hids hfix
  rw [resync_eq_flat f g broker st]
  rw [resync_eq_flat f g broker (resyncFlat f g broker (brokerPlanPairs broker) st).1]
  exact ⟨hno.2.2.1, hno.2.2.2, hno.1,
    resyncFlat_platforms f g broker (brokerPlanPairs broker) _, hno.2.1⟩

/-- Claim C3 witness: a concrete broker with one public plan starting from an
empty state — the second run changes nothing. -/
theorem resync_idempotent_witness :
    (brokerPlanIDs (ServiceBroker.mk "b1" [ServiceOffering.mk "so1"
      [ServicePlan.mk "pl1" "c1" "n1" true]])).Nodup ∧
    ((resync (fun _ _ _ => true) (fun _ => [])
        (ServiceBroker.mk "b1" [ServiceOffering.mk "so1"
          [ServicePlan.mk "pl1" "c1" "n1" true]])
        (resync (fun _ _ _ => true) (fun _ => [])
          (ServiceBroker.mk "b1" [ServiceOffering.mk "so1"
            [ServicePlan.mk "pl1" "c1" "n1" true]])
          (SMState.mk [] [] 0)).1).2.1 = [] ∧
     (resync (fun _ _ _ => true) (fun _ => [])
        (ServiceBroker.mk "b1" [ServiceOffering.mk "so1"
          [ServicePlan.mk "pl1" "c1" "n1" true]])
        (resync (fun _ _ _ => true) (fun _ => [])
          (ServiceBroker.mk "b1" [ServiceOffering.mk "so1"
            [ServicePlan.mk "pl1" "c1" "n1" true]])
          (SMState.mk [] [] 0)).1).2.2 = [] ∧
     (resync (fun _ _ _ => true) (fun _ => [])
        (ServiceBroker.mk "b1" [ServiceOffering.mk "so1"
          [ServicePlan.mk "pl1" "c1" "n1" true]])
        (resync (fun _ _ _ => true) (fun _ => [])
          (ServiceBroker.mk "b1" [ServiceOffering.mk "so1"
            [ServicePlan.mk "pl1" "c1" "n1" true]])
          (SMState.mk [] [] 0)).1).1.visibilities.Perm
       (resync (fun _ _ _ => true) (fun _ => [])
          (ServiceBroker.mk "b1" [ServiceOffering.mk "so1"
            [ServicePlan.mk "pl1" "c1" "n1" true]])
          (SMState.mk [] [] 0)).1.visibilities ∧
     (resync (fun _ _ _ => true) (fun _ => [])
        (ServiceBroker.mk "b1" [ServiceOffering.mk "so1"
          [ServicePlan.mk "pl1" "c1" "n1" true]])
        (resync (fun _ _ _ => true) (fun _ => [])
          (ServiceBroker.mk "b1" [ServiceOffering.mk "so1"
            [ServicePlan.mk "pl1" "c1" "n1" true]])
          (SMState.mk [] [] 0)).1).1.platforms =
       (resync (fun _ _ _ => true) (fun _ => [])
          (ServiceBroker.mk "b1" [ServiceOffering.mk "so1"
            [ServicePlan.mk "pl1" "c1" "n1" true]])
          (SMState.mk [] [] 0)).1.platforms ∧
     (resync (fun _ _ _ => true) (fun _ => [])
        (ServiceBroker.mk "b1" [ServiceOffering.mk "so1"
          [ServicePlan.mk "pl1" "c1" "n1" true]])
        (resync (fun _ _ _ => true) (fun _ => [])
          (ServiceBroker.mk "b1" [ServiceOffering.mk "so1"
            [ServicePlan.mk "pl1" "c1" "n1" true]])
          (SMState.mk [] [] 0)).1).1.ctr =
       (resync (fun _ _ _ => true) (fun _ => [])
          (ServiceBroker.mk "b1" [ServiceOffering.mk "so1"
            [ServicePlan.mk "pl1" "c1" "n1" true]])
          (SMState.mk [] [] 0)).1.ctr) :=
  ⟨by decide,
    resync_idempotent (fun _ _ _ => true) (fun _ => [])
      (ServiceBroker.mk "b1" [ServiceOffering.mk "so1"
        [ServicePlan.mk "pl1" "c1" "n1" true]])
      (SMState.mk [] [] 0) (by decide)⟩
